import Mathlib

/-!
Shallow embedding of the `score-heap` library (a partitioned priority index over
dense integer identifiers with int32 scores) and proofs about it.

Source files embedded:
 * `src/unnamed/part_001` — `searchBinary`, `interleaveArrays` (the utility module);
 * `src/unnamed/part_000` — `Partition` (sorted segment);
 * `src/src/UniformPartition.js` — `UniformPartition` (uniform segment);
 * `src/src/ScoreHeap.js` — `ScoreHeap` (the orchestrator).

Modelling conventions.  JavaScript numbers are modelled as `Int` (all stored
values — int32 scores, identifiers, `-1` sentinels, slot indices — are within
int32 range, so no wrap-around modelling is needed).  The side table
(`this.lookups`, an `Int32Array(maxLength * 3)` holding `score, parId, slot`
triples) is modelled as three `List Int`s of length `maxLength`; typed-array
out-of-bounds writes are silently ignored in JS exactly as `List.set` ignores
out-of-range positions, and the only out-of-bounds *reads* the heap performs
(`lookups[(index*3)+1]` in `remove`/`update` for an out-of-range identifier,
which yields `undefined` in JS) flow into a `>= 0` test where `undefined` and
the modelled default `-1` are observably identical.  A segment's identifier
array is modelled by the list of its logical region `[0, length)` — the junk
beyond `length` in the JS backing array is never observable; the fixed backing
capacity of a sorted segment (which only the `join` overflow check reads) is
carried explicitly in the `cap` field.
-/

namespace ScoreHeapModel

/-- JS `a || b` on numbers: `b` if `a` is `0` (falsy), else `a`.  Used by every
comparator in the source (`score - s || index - i`). -/
def orInt (a b : Int) : Int := if a = 0 then b else a

/-- Loop of `searchBinary` (src/unnamed/part_001 lines 1-32).  `lo`/`hi` mirror
`minIndex`/`maxIndex` (`minIndex` never goes below 0, `maxIndex` may reach -1,
hence `Nat`/`Int`); `last` carries the JS `currentIndex, result` pair that
persists after the loop (`none` = both still `undefined`, which happens exactly
when the loop never ran).  `(minIndex + maxIndex) >> 1` is floor division by two
of a non-negative int, i.e. `(lo + hi.toNat) / 2` on `Nat`.  The structural
`fuel` only bounds the iteration count; it is never exhausted when
`(hi + 1 - lo).toNat ≤ fuel`, because `hi + 1 - lo` shrinks every iteration
(the bisection point `cur` satisfies `lo ≤ cur ≤ hi`).  `sbExit` is the code
after the loop: `undefined` when the loop never ran (`currentIndex` is still
unassigned), else `currentIndex + 1` when the last comparison was positive,
else `currentIndex`. -/
def sbExit : Option (Nat × Int) → Option Nat
  | none => none
  | some (cur, r) => if 0 < r then some (cur + 1) else some cur

/-- Loop of `searchBinary`, structurally recursive on the fuel. -/
def sbLoop (fn : Nat → Int) : Nat → Nat → Int → Option (Nat × Int) → Option Nat
  | 0, lo, hi, last =>
    if (lo : Int) ≤ hi then none else sbExit last
  | fuel + 1, lo, hi, last =>
    if (lo : Int) ≤ hi then
      let cur : Nat := (lo + hi.toNat) / 2
      let r := fn cur
      if 0 < r then sbLoop fn fuel (cur + 1) hi (some (cur, r))
      else if r < 0 then sbLoop fn fuel lo ((cur : Int) - 1) (some (cur, r))
      else some cur
    else sbExit last

/-- The `searchBinary(length, fn)` utility: binary search over positions
`0..length-1` driven by a three-way comparator.  Returns `none` exactly when
`length = 0` (the JS function returns `undefined` there, since `currentIndex`
was never assigned).  The fuel `length` dominates the initial
`(hi + 1 - lo).toNat = length`. -/
def searchBinary (length : Nat) (fn : Nat → Int) : Option Nat :=
  sbLoop fn length 0 ((length : Int) - 1) none

/-- The `interleaveArrays(dest, src1, src2, fn)` loop body flattened into a
step-per-element recursion (src/unnamed/part_001 lines 34-48): while
`k < src2.length && (j == src1.length || fn(j, k) < 0)` an element of `src2` is
emitted, otherwise (if any remain) one element of `src1`; the outer `for` stops
at `i = src1.length + src2.length`, and `i = j + k` throughout. -/
def ilvGo (a b : List Int) (fn : Nat → Nat → Int) : Nat → Nat → Nat → List Int
  | 0, _, _ => []
  | fuel + 1, j, k =>
    if k < b.length ∧ (j = a.length ∨ fn j k < 0) then
      b.getD k 0 :: ilvGo a b fn fuel j (k + 1)
    else if j < a.length then
      a.getD j 0 :: ilvGo a b fn fuel (j + 1) k
    else []

/-- The `interleaveArrays` utility on (the logical regions of) two arrays; the
destination buffer is the returned list.  The structural fuel
`a.length + b.length` is exactly the number of destination writes, so it is
never exhausted. -/
def interleaveArrays (a b : List Int) (fn : Nat → Nat → Int) : List Int :=
  ilvGo a b fn (a.length + b.length) 0 0

/-- The shared side table (`this.lookups = new Int32Array(maxLength * 3)`),
split field-wise: entry `i` of the JS array at offsets `3i, 3i+1, 3i+2` is
`score[i], parId[i], slot[i]` here.  All three lists have length `maxLength`. -/
structure Lookups where
  score : List Int
  parId : List Int
  slot : List Int
deriving Repr, DecidableEq

/-- Fresh side table: `new Int32Array(maxLength * 3)` followed by `fill(-1)`. -/
def Lookups.init (maxLength : Nat) : Lookups :=
  ⟨List.replicate maxLength (-1), List.replicate maxLength (-1),
   List.replicate maxLength (-1)⟩

/-- Read `lookups[index * 3]` (the score of identifier `index`).  Every score
read performed by the source is in range; the default is never observable. -/
def Lookups.scoreOf (L : Lookups) (i : Int) : Int := L.score.getD i.toNat 0

/-- Read `lookups[(index * 3) + 1]` (the owning partition id).  An
out-of-range read yields `undefined` in JS, which every use site feeds into a
`>= 0` test; the default `-1` fails that test identically. -/
def Lookups.parIdOf (L : Lookups) (i : Int) : Int := L.parId.getD i.toNat (-1)

/-- Read `lookups[(index * 3) + 2]` (the slot hint, uniform partitions only). -/
def Lookups.slotOf (L : Lookups) (i : Int) : Int := L.slot.getD i.toNat (-1)

/-- Write `lookups[index * 3] = v`; out-of-range writes are ignored, as for a
JS typed array. -/
def Lookups.setScore (L : Lookups) (i : Int) (v : Int) : Lookups :=
  if 0 ≤ i then { L with score := L.score.set i.toNat v } else L

/-- Write `lookups[(index * 3) + 1] = v`. -/
def Lookups.setParId (L : Lookups) (i : Int) (v : Int) : Lookups :=
  if 0 ≤ i then { L with parId := L.parId.set i.toNat v } else L

/-- Write `lookups[(index * 3) + 2] = v`. -/
def Lookups.setSlot (L : Lookups) (i : Int) (v : Int) : Lookups :=
  if 0 ≤ i then { L with slot := L.slot.set i.toNat v } else L

/-- A segment.  `Part.s` is the sorted partition of src/unnamed/part_000
(`indices` = logical region `[0, length)`, `cap` = the backing
`Int32Array`'s length, `min` = the stored `this.min`); `Part.u` is the
uniform partition of src/src/UniformPartition.js (`indices` = logical region
including `-1` tombstones; its backing array grows on demand and its length is
never consulted for behaviour, so it is not carried). -/
inductive Part where
  | s (id : Int) (indices : List Int) (cap : Nat) (min : Int)
  | u (id : Int) (indices : List Int) (min : Int)
deriving Repr, DecidableEq

/-- Segment identity (`this.id`). -/
def Part.id : Part → Int
  | .s i _ _ _ => i
  | .u i _ _ => i

/-- The `uniform` tag (`true` exactly on `UniformPartition`). -/
def Part.isUniform : Part → Bool
  | .s _ _ _ _ => false
  | .u _ _ _ => true

/-- Logical length (`this.length`): counts tombstones in a uniform partition,
exactly as the JS `length` field does. -/
def Part.length : Part → Nat
  | .s _ idx _ _ => idx.length
  | .u _ idx _ => idx.length

/-- Stored minimum score (`this.min`). -/
def Part.min : Part → Int
  | .s _ _ _ m => m
  | .u _ _ m => m

/-- The logical identifier list of a segment. -/
def Part.indices : Part → List Int
  | .s _ idx _ _ => idx
  | .u _ idx _ => idx

/-- The `max` getter: a sorted partition reads the score of its last logical
element (`undefined` when empty — the source only consults `max` on non-empty
segments); a uniform partition returns `min`. -/
def Part.max (L : Lookups) : Part → Option Int
  | .s _ idx _ _ => idx.getLast?.map (fun i => L.scoreOf i)
  | .u _ _ m => some m

/-- JS `x > m` where `m` may be `undefined` (comparison with `undefined` is
false). -/
def gtOpt (x : Int) (m : Option Int) : Bool :=
  match m with
  | some v => v < x
  | none => false

/-- JS `x >= m` where `m` may be `undefined`. -/
def geOpt (x : Int) (m : Option Int) : Bool :=
  match m with
  | some v => v ≤ x
  | none => false

/-- The `Partition` constructor: records `min` from the first element's score
and, for every element of the logical region, sets its owning id and clears its
slot hint. -/
def partNew (L : Lookups) (id : Int) (indices : List Int) (cap : Nat) :
    Lookups × Part :=
  let mn := (indices.head?.map L.scoreOf).getD 0
  let L' := indices.foldl (fun acc i => (acc.setParId i id).setSlot i (-1)) L
  (L', .s id indices cap mn)

/-- The `UniformPartition` constructor: records the shared score as `min` and,
for every slot of the logical region, sets the element's owning id and its slot
hint.  (At every construction site the region has no tombstones; a `-1` entry
would be skipped silently, as the JS out-of-bounds write is.) -/
def unifNew (L : Lookups) (id : Int) (indices : List Int) : Lookups × Part :=
  let mn := (indices.head?.map L.scoreOf).getD 0
  let L' := indices.enum.foldl
    (fun acc iv => ((acc.setParId iv.2 id).setSlot iv.2 (iv.1 : Int))) L
  (L', .u id indices mn)

/-- `Partition.insert(index, score, partitionIndex?)`: writes the owning id,
locates the slot (caller hint, else binary search by score then identifier) and
shifts the tail up by one (`List.insertIdx`).  `min` is refreshed when the
element lands at position 0.  The `.getD 0` default is never taken: the source
never calls `insert` without a hint on an empty sorted partition. -/
def partInsert (L : Lookups) (id : Int) (idx : List Int) (cap : Nat) (mn : Int)
    (index score : Int) (hint : Option Nat) : Lookups × Part :=
  let L1 := L.setParId index id
  let pi := match hint with
    | some v => v
    | none => (searchBinary idx.length (fun i =>
        orInt (score - L1.scoreOf (idx.getD i 0)) (index - idx.getD i 0))).getD 0
  (L1, .s id (idx.insertIdx pi index) cap (if pi = 0 then score else mn))

/-- `Partition.remove(index)`: binary search keyed by the element's current
score (read from the side table) with identifier tie-break, then a downward
shift (none when removing the last logical element), then the owning id is
cleared.  When the search lands at or past the last position the JS code only
decrements `length`, i.e. drops the last element. -/
def partRemove (L : Lookups) (id : Int) (idx : List Int) (cap : Nat) (mn : Int)
    (index : Int) : Lookups × Part :=
  let score := L.scoreOf index
  let pi := (searchBinary idx.length (fun i =>
      orInt (score - L.scoreOf (idx.getD i 0)) (index - idx.getD i 0))).getD idx.length
  let idx' := if pi + 1 < idx.length then idx.eraseIdx pi else idx.dropLast
  (L.setParId index (-1), .s id idx' cap mn)

/-- `Partition.update(index, score)` (the in-place relocation).  The JS
`reindex(currentPartitionIndex, partitionIndex, index)` double shift is exactly
erase-at-`cpi` followed by insert-at-`pi`. -/
def partUpdate (L : Lookups) (id : Int) (idx : List Int) (cap : Nat) (mn : Int)
    (index score : Int) : Part :=
  let currentScore := L.scoreOf index
  if score = currentScore then .s id idx cap mn
  else
    let cpi := (searchBinary idx.length (fun i =>
        orInt (currentScore - L.scoreOf (idx.getD i 0)) (index - idx.getD i 0))).getD 0
    if (0 < cpi ∧ score ≤ L.scoreOf (idx.getD (cpi - 1) 0)) ∨
       (cpi + 1 < idx.length ∧ L.scoreOf (idx.getD (cpi + 1) 0) ≤ score) then
      let pi0 := Nat.min (idx.length - 1) ((searchBinary idx.length (fun i =>
          orInt (score - L.scoreOf (idx.getD i 0)) (index - idx.getD i 0))).getD 0)
      let pi := if cpi < pi0 ∧ 0 < pi0 ∧
          orInt (score - L.scoreOf (idx.getD pi0 0)) (index - idx.getD pi0 0) < 0
        then pi0 - 1 else pi0
      let idx' := if cpi ≠ pi then (idx.eraseIdx cpi).insertIdx pi index else idx
      let mn' := if pi = 0 then score
        else if cpi = 0 then L.scoreOf (idx'.getD 0 0)
        else mn
      .s id idx' cap mn'
    else
      .s id idx cap (if cpi = 0 then score else mn)

/-- `Partition.split()`: the upper half is detached (into a fresh array whose
backing length is the pre-split logical length) and the logical length halves.
The length is even at the only call site (a full partition, whose length is the
power-of-two `partitionLength`). -/
def partSplit (idx : List Int) : List Int × List Int :=
  (idx.take (idx.length / 2), idx.drop (idx.length / 2))

/-- `Partition.join(partition)`: transfers ownership of the other segment's
live elements, then merges the two sorted regions with `interleaveArrays`
under the score-then-identifier comparator.  `none` models the JS overflow
exception (`Cannot join with a partition whose additional length overflows`),
which the orchestrator's guard makes unreachable. -/
def partJoin (L : Lookups) (id : Int) (idx : List Int) (cap : Nat) (mn : Int)
    (otherIdx : List Int) : Option (Lookups × Part) :=
  if otherIdx.length + idx.length ≤ cap then
    let L' := otherIdx.foldl (fun acc i => (acc.setParId i id).setSlot i (-1)) L
    let merged := interleaveArrays idx otherIdx (fun a b =>
        orInt (L'.scoreOf (otherIdx.getD b 0) - L'.scoreOf (idx.getD a 0))
              (otherIdx.getD b 0 - idx.getD a 0))
    some (L', .s id merged cap mn)
  else none

/-- `UniformPartition.insert(index)`: append at the end (backing growth is
unobservable), recording the owning id and the slot hint. -/
def unifInsert (L : Lookups) (id : Int) (idx : List Int) (mn : Int)
    (index : Int) : Lookups × Part :=
  let L1 := L.setParId index id
  let L2 := L1.setSlot index (idx.length : Int)
  (L2, .u id (idx ++ [index]) mn)

/-- `UniformPartition.join(partition)`: append the other segment's logical
region, refreshing owning id and slot hint for the live (non-tombstone)
entries of the appended range. -/
def unifJoin (L : Lookups) (id : Int) (idx : List Int) (mn : Int)
    (otherIdx : List Int) : Lookups × Part :=
  let base := idx.length
  let L' := otherIdx.enum.foldl
    (fun acc iv =>
      if 0 ≤ iv.2 then (acc.setParId iv.2 id).setSlot iv.2 ((base + iv.1 : Nat) : Int)
      else acc) L
  (L', .u id (idx ++ otherIdx) mn)

/-- `UniformPartition.next()`: shrink the logical length past trailing
tombstones, then return the live tail identifier, or `undefined` when the
segment emptied (the backing reset to `Int32Array(1)` is unobservable). -/
def unifNext (id : Int) (idx : List Int) (mn : Int) : Part × Option Int :=
  let idx' := (idx.reverse.dropWhile (fun v => decide (v < 0))).reverse
  (.u id idx' mn, idx'.getLast?)

/-- `UniformPartition.remove(index)`: tombstone the slot named by the side
table's slot hint (a negative or out-of-range hint writes nowhere, as in JS),
then clear the owning id and the hint.  The logical length is unchanged. -/
def unifRemove (L : Lookups) (id : Int) (idx : List Int) (mn : Int)
    (index : Int) : Lookups × Part :=
  let pi := L.slotOf index
  let idx' := if 0 ≤ pi then idx.set pi.toNat (-1) else idx
  let L1 := L.setParId index (-1)
  let L2 := L1.setSlot index (-1)
  (L2, .u id idx' mn)

/-- Dispatch `next()` over the segment variants (`Partition.next` reads the
last logical element and never mutates; `UniformPartition.next` may shrink).
Neither variant touches the side table. -/
def partNextD : Part → Part × Option Int
  | .s id idx cap mn => (.s id idx cap mn, idx.getLast?)
  | .u id idx mn => unifNext id idx mn

/-- Dispatch `remove(index)` over the segment variants. -/
def partRemoveD (L : Lookups) (p : Part) (index : Int) : Lookups × Part :=
  match p with
  | .s id idx cap mn => partRemove L id idx cap mn index
  | .u id idx mn => unifRemove L id idx mn index

/-- Dispatch `update(index, score)` over the segment variants
(`UniformPartition.update` is a noop). -/
def partUpdateD (L : Lookups) (p : Part) (index score : Int) : Part :=
  match p with
  | .s id idx cap mn => partUpdate L id idx cap mn index score
  | .u id idx mn => .u id idx mn

/-- Dispatch `insert` over the segment variants (`UniformPartition.insert`
ignores the score and the hint). -/
def partInsertD (L : Lookups) (p : Part) (index score : Int) (hint : Option Nat) :
    Lookups × Part :=
  match p with
  | .s id idx cap mn => partInsert L id idx cap mn index score hint
  | .u id idx mn => unifInsert L id idx mn index

/-- The `ScoreHeap` instance state: the side table, the ordered segment
sequence, the id-to-position mapping (`this.partitionIds`, a JS object modelled
as a total function — only keys of live segments are ever read), the id
counter and the derived `partitionLength`. -/
structure Heap where
  lookups : Lookups
  partitions : List Part
  partitionIds : List (Int × Nat)
  nextId : Int
  partitionLength : Nat
deriving Repr, DecidableEq

/-- Read the id-to-position mapping (`partitionIds[k]`); the newest binding
wins, exactly as assignment to a JS object key does.  Only keys of live
segments are ever read, so the default is unobservable. -/
def pidGet (m : List (Int × Nat)) (k : Int) : Nat :=
  ((m.find? (fun kv => kv.1 == k)).map Prod.snd).getD 0

/-- Point update of the id-to-position mapping (`partitionIds[k] = v`). -/
def pidSet (m : List (Int × Nat)) (k : Int) (v : Nat) : List (Int × Nat) :=
  (k, v) :: m

/-- Loop of `ScoreHeap.reindex(index)`: records position `i` for every segment
from `i = start` on. -/
def reindexAux (m : List (Int × Nat)) : List Part → Nat → List (Int × Nat)
  | [], _ => m
  | p :: rest, i => reindexAux (pidSet m p.id i) rest (i + 1)

/-- `ScoreHeap.reindex(index)`. -/
def Heap.reindex (h : Heap) (start : Nat) : Heap :=
  { h with partitionIds := reindexAux h.partitionIds (h.partitions.drop start) start }

/-- `ScoreHeap.insertPartition(index, indices, length)`: construct a sorted
segment with the next id, record its position, splice it in, and reindex the
segments after it.  Returns the new segment alongside the new state. -/
def Heap.insertPartition (h : Heap) (index : Nat) (indices : List Int)
    (cap : Nat) : Heap × Part :=
  let Lp := partNew h.lookups h.nextId indices cap
  let h' := { h with
    lookups := Lp.1
    partitionIds := pidSet h.partitionIds h.nextId index
    nextId := h.nextId + 1
    partitions := h.partitions.insertIdx index Lp.2 }
  (h'.reindex (index + 1), Lp.2)

/-- Loop of `ScoreHeap.next()` over the partitions viewed from the top
(reversed list): ask the tail segment; pop it when it answers `undefined` and
retry.  The popped segments' stale `partitionIds` entries are never read. -/
def nextAux : List Part → List Part × Option Int
  | [] => ([], none)
  | p :: rest =>
    match partNextD p with
    | (p', some v) => (p' :: rest, some v)
    | (_, none) => nextAux rest

/-- `ScoreHeap.next()`. -/
def Heap.next (h : Heap) : Heap × Option Int :=
  let r := nextAux h.partitions.reverse
  ({ h with partitions := r.1.reverse }, r.2)

/-- `ScoreHeap.joinPartitions(index)`: see src/src/ScoreHeap.js lines 339-387.
The guard, the `partition1.min == partition2.max` test (a comparison with
`undefined` is false, hence the `Option` form), the two uniform-absorb arms,
the brand-new-uniform arm, and the direct sorted merge arm.  The `h` fallbacks
on missing list positions are unreachable (the guard bounds `i + 1`), and the
`partJoin` `none` fallback models the JS exception, unreachable because the
arm's guard checked the combined length against the backing capacity. -/
def Heap.joinPartitionsF (h : Heap) (index : Int) : Heap :=
  if 0 ≤ index ∧ index < (h.partitions.length : Int) - 1 then
    let i := index.toNat
    match h.partitions.get? i, h.partitions.get? (i + 1) with
    | some p1, some p2 =>
      if p2.max h.lookups = some p1.min then
        if p1.isUniform then
          match p1 with
          | .u id idx mn =>
            let Lp := unifJoin h.lookups id idx mn p2.indices
            ({ h with
              lookups := Lp.1
              partitions := (h.partitions.set i Lp.2).eraseIdx (i + 1) }).reindex (i + 1)
          | .s _ _ _ _ => h
        else if p2.isUniform then
          match p2 with
          | .u id idx mn =>
            let Lp := unifJoin h.lookups id idx mn p1.indices
            ({ h with
              lookups := Lp.1
              partitions := (h.partitions.set (i + 1) Lp.2).eraseIdx i }).reindex i
          | .s _ _ _ _ => h
        else
          let merged := p1.indices ++ p2.indices
          let h1 := { h with partitionIds := pidSet h.partitionIds h.nextId i }
          let Lp := unifNew h1.lookups h1.nextId merged
          ({ h1 with
            lookups := Lp.1
            nextId := h1.nextId + 1
            partitions := (h1.partitions.set i Lp.2).eraseIdx (i + 1) }).reindex (i + 1)
      else if ¬p1.isUniform ∧ ¬p2.isUniform ∧
          p1.length + p2.length ≤ h.partitionLength then
        match p1 with
        | .s id idx cap mn =>
          match partJoin h.lookups id idx cap mn p2.indices with
          | some Lp =>
            ({ h with
              lookups := Lp.1
              partitions := (h.partitions.set i Lp.2).eraseIdx (i + 1) }).reindex i
          | none => h
        | .u _ _ _ => h
      else h
    | _, _ => h
  else h

/-- `ScoreHeap.remove(index)`: soft-fails (`undefined`, no mutation) when the
heap has no segments or the side table shows no owner; otherwise delegates to
the owning segment and splices it out when its logical length reaches zero
(which only a sorted segment can, tombstones keep a uniform segment's length).
The `none` arm of the inner match (a stale id-to-position entry) is
unreachable for well-formed states; JS would fault there. -/
def Heap.remove (h : Heap) (index : Nat) : Heap × Option Int :=
  if h.partitions.isEmpty then (h, none)
  else
    let pid := h.lookups.parIdOf index
    if 0 ≤ pid then
      let pIdx := pidGet h.partitionIds pid
      match h.partitions.get? pIdx with
      | none => (h, some index)
      | some p =>
        let Lp := partRemoveD h.lookups p index
        if Lp.2.length = 0 then
          (({ h with
              lookups := Lp.1
              partitions := h.partitions.eraseIdx pIdx }).reindex pIdx, some index)
        else
          ({ h with
            lookups := Lp.1
            partitions := h.partitions.set pIdx Lp.2 }, some index)
    else (h, none)

/-- The routing comparator of `ScoreHeap.update` (lines 212-230): position `i`
matches when its `min` admits the score and the next segment's does not (or it
is the last), matches when the score undershoots the very first segment, and
otherwise steers the search.  Out-of-range probes (never made by
`searchBinary`) answer 0. -/
def routeFn (ps : List Part) (score : Int) (i : Nat) : Int :=
  match ps.get? i with
  | none => 0
  | some p =>
    if p.min ≤ score then
      if i = ps.length - 1 then 0
      else match ps.get? (i + 1) with
        | some q => if score < q.min then 0 else 1
        | none => 0
    else if i = 0 then 0
    else -1

/-- The re-insertion phase of `ScoreHeap.update` (lines 209-309): locate the
target segment by binary search over the sequence, then apply the first
matching case of the routing decision list.  Case numbering follows the
source's comments; case 4 is the source's constant-`false` dead branch and is
omitted (JS short-circuits on the constant).  The `h` fallbacks on impossible
list positions are unreachable: the routing search always lands on an existing
position, and each arm's guard has established the shape it re-matches. -/
def routeInsert (h : Heap) (index : Nat) (score : Int) : Heap :=
  let ps := h.partitions
  let pIdx := (searchBinary ps.length (routeFn ps score)).getD 0
  match ps.get? pIdx with
  | none => h
  | some p =>
    let pMax := p.max h.lookups
    let lower := if 0 < pIdx then ps.get? (pIdx - 1) else none
    let upper := ps.get? (pIdx + 1)
    -- case 1: best case, uniform partition with matching score
    if p.isUniform && decide (p.min = score) then
      let Lp := partInsertD h.lookups p index score none
      { h with lookups := Lp.1, partitions := ps.set pIdx Lp.2 }
    -- case 2: lower partition is uniform with matching score
    else if lower.any (fun lp => lp.isUniform && decide (lp.min = score)) then
      match lower with
      | some lp =>
        let Lp := partInsertD h.lookups lp index score none
        { h with lookups := Lp.1, partitions := ps.set (pIdx - 1) Lp.2 }
      | none => h
    -- case 3: partition has room and score is at the end
    else if !p.isUniform && decide (p.length < h.partitionLength) &&
        gtOpt score pMax then
      let Lp := partInsertD h.lookups p index score (some p.length)
      { h with lookups := Lp.1, partitions := ps.set pIdx Lp.2 }
    -- case 5: partition full or non-matching uniform; upper partition takes it
    else if ((p.isUniform || decide (p.length = h.partitionLength)) &&
          geOpt score pMax) &&
        upper.any (fun up => !up.isUniform &&
          decide (up.length < h.partitionLength)) then
      match upper with
      | some up =>
        let Lp := partInsertD h.lookups up index score (some 0)
        { h with lookups := Lp.1, partitions := ps.set (pIdx + 1) Lp.2 }
      | none => h
    -- case 6: partition full or non-matching uniform; lower partition takes it
    else if ((p.isUniform || decide (p.length = h.partitionLength)) &&
          decide (score = p.min)) &&
        lower.any (fun lp => !lp.isUniform &&
          (decide (lp.length < h.partitionLength) ||
            (decide (score = lp.min) &&
              decide (lp.max h.lookups = some lp.min)))) then
      match lower with
      | some lp =>
        if lp.length < h.partitionLength then
          let Lp := partInsertD h.lookups lp index score none
          { h with lookups := Lp.1, partitions := ps.set (pIdx - 1) Lp.2 }
        else
          -- full, but can be converted to a uniform partition
          let Lu := unifNew h.lookups lp.id lp.indices
          let Lp := partInsertD Lu.1 Lu.2 index score none
          { h with lookups := Lp.1, partitions := ps.set (pIdx - 1) Lp.2 }
      | none => h
    -- case 7: partition is uniform but ineligible; insert a new partition
    else if p.isUniform then
      (h.insertPartition (if p.min < score then pIdx + 1 else pIdx) [(index : Int)]
        h.partitionLength).1
    -- case 8: simple insert
    else if p.length < h.partitionLength then
      let Lp := partInsertD h.lookups p index score none
      { h with lookups := Lp.1, partitions := ps.set pIdx Lp.2 }
    -- case 9: full but convertible to a uniform partition
    else if decide (score = p.min) && decide (pMax = some p.min) then
      let Lu := unifNew h.lookups p.id p.indices
      let Lp := partInsertD Lu.1 Lu.2 index score none
      { h with lookups := Lp.1, partitions := ps.set pIdx Lp.2 }
    -- case 10: partition is full, split
    else
      match p with
      | .s pid idx cap mn =>
        let halves := partSplit idx
        let pLow : Part := .s pid halves.1 cap mn
        let h1 := { h with partitions := ps.set pIdx pLow }
        let hp := h1.insertPartition (pIdx + 1) halves.2 idx.length
        let h2 := hp.1
        let pNew := hp.2
        if score < pNew.min then
          let Lp := partInsertD h2.lookups pLow index score none
          { h2 with lookups := Lp.1, partitions := h2.partitions.set pIdx Lp.2 }
        else
          let Lp := partInsertD h2.lookups pNew index score none
          { h2 with
            lookups := Lp.1
            partitions := h2.partitions.set (pIdx + 1) Lp.2 }
      | .u _ _ _ => h

/-- The remove-then-reinsert phase of `ScoreHeap.update` (lines 180-310):
remove the element from its current segment when owned (possibly deleting the
emptied segment and joining the newly adjacent pair), write the new score into
the side table, then either open the first segment (empty heap) or route the
insertion. -/
def updateSlow (h : Heap) (index : Nat) (score : Int)
    (cur : Option (Nat × Part)) : Heap :=
  let h1 := match cur with
    | none => h
    | some cp =>
      let Lp := partRemoveD h.lookups cp.2 index
      if Lp.2.length = 0 then
        let h' := ({ h with
          lookups := Lp.1
          partitions := h.partitions.eraseIdx cp.1 }).reindex cp.1
        h'.joinPartitionsF ((cp.1 : Int) - 1)
      else
        { h with lookups := Lp.1, partitions := h.partitions.set cp.1 Lp.2 }
  let h2 := { h1 with lookups := h1.lookups.setScore index score }
  if h2.partitions.isEmpty then
    (h2.insertPartition 0 [(index : Int)] h2.partitionLength).1
  else
    routeInsert h2 index score

/-- `ScoreHeap.update(index, score)`: the fast path delegates to the owning
segment when it can absorb the new score in place (uniform: equal score;
sorted: sole segment, or the score stays within its own range without invading
the segment above), writing the side-table score afterwards; otherwise the
remove-then-reinsert path runs. -/
def Heap.update (h : Heap) (index : Nat) (score : Int) : Heap :=
  let cpid := h.lookups.parIdOf index
  let cur : Option (Nat × Part) :=
    if 0 ≤ cpid then
      (h.partitions.get? (pidGet h.partitionIds cpid)).map
        (fun p => (pidGet h.partitionIds cpid, p))
    else none
  let internal : Bool :=
    match cur with
    | none => false
    | some cp =>
      if cp.2.isUniform then decide (cp.2.min = score)
      else decide (h.partitions.length = 1) ||
        (decide (cp.2.min ≤ score) &&
          (decide (cp.1 = h.partitions.length - 1) ||
            (match h.partitions.get? (cp.1 + 1) with
             | some q => decide (score < q.min)
             | none => false)))
  if internal then
    match cur with
    | some cp =>
      let p' := partUpdateD h.lookups cp.2 index score
      { h with
        lookups := h.lookups.setScore index score
        partitions := h.partitions.set cp.1 p' }
    | none => h
  else
    updateSlow h index score cur

/-- `this.partitionLength` as computed by the constructor:
`min(4096, max(32, 2 ** floor(log2(n / 1024))))` in floating point.  For
`n < 1024` the inner power is below 1, so the value is 32 (also for `n = 0`,
where JS evaluates `2 ** -Infinity = 0`); for `n ≥ 1024`,
`floor(log2(n / 1024)) = Nat.log2 (n / 1024)` with integer division (the
float computation is exact: `n / 1024` has denominator 1024 and its log2 is
approximated far more closely than the distance to the nearest integer
whenever the floor is at most 12, beyond which the 4096 cap decides). -/
def partitionLengthOf (n : Nat) : Nat :=
  if n < 1024 then 32
  else Nat.min 4096 (Nat.max 32 (2 ^ Nat.log2 (n / 1024)))

/-- Write the scores of a chunk of `(identifier, score)` pairs into the side
table (the constructor's chunk-filling loop). -/
def writeScores (L : Lookups) (chunk : List (Nat × Int)) : Lookups :=
  chunk.foldl (fun acc p => acc.setScore (p.1 : Int) p.2) L

/-- The constructor's partitioning loop over the sorted pair list: cut a chunk
of `pl` entries, mark it uniform when it is full and its first and last scores
agree, absorb any further entries of the same score into a uniform chunk, and
emit the corresponding segment, threading the side table, the id map, the id
counter and the sequence.  The structural fuel (initially the list length) is
never exhausted: every round consumes at least one entry. -/
def buildLoop (pl : Nat) : Nat → List (Nat × Int) → Lookups →
    List (Int × Nat) → Int → List Part →
    Lookups × List (Int × Nat) × Int × List Part
  | _, [], L, pids, nid, ps => (L, pids, nid, ps)
  | 0, _ :: _, L, pids, nid, ps => (L, pids, nid, ps)
  | fuel + 1, x :: rest, L, pids, nid, ps =>
    let chunk := x :: rest.take (pl - 1)
    let rest1 := rest.drop (pl - 1)
    let L1 := writeScores L chunk
    if chunk.length = pl ∧ ((chunk.getLast?.map Prod.snd).getD 0 = x.2) then
      let extra := rest1.takeWhile (fun pr => decide (pr.2 = x.2))
      let rest2 := rest1.drop extra.length
      let L2 := writeScores L1 extra
      let pids' := pidSet pids nid ps.length
      let Lu := unifNew L2 nid ((chunk ++ extra).map (fun pr => (pr.1 : Int)))
      buildLoop pl fuel rest2 Lu.1 pids' (nid + 1) (ps ++ [Lu.2])
    else
      let pids' := pidSet pids nid ps.length
      let Ls := partNew L1 nid (chunk.map (fun pr => (pr.1 : Int))) pl
      buildLoop pl fuel rest1 Ls.1 pids' (nid + 1) (ps ++ [Ls.2])

/-- The `ScoreHeap` constructor: size `partitionLength`, sort the input pairs
by score then identifier (the JS comparator `a[1] - b[1] || a[0] - b[0]`; any
sorting algorithm agrees with `Array.prototype.sort` here because the order is
total and antisymmetric on the contractual distinct identifiers), then run the
partitioning loop on a fresh side table. -/
def scoreHeapNew (indexScores : List (Nat × Int)) (maxLength : Nat) : Heap :=
  let pl := partitionLengthOf indexScores.length
  let sorted := indexScores.insertionSort
    (fun a b => a.2 < b.2 ∨ (a.2 = b.2 ∧ a.1 ≤ b.1))
  let r := buildLoop pl sorted.length sorted (Lookups.init maxLength) [] 0 []
  { lookups := r.1, partitions := r.2.2.2, partitionIds := r.2.1,
    nextId := r.2.2.1, partitionLength := pl }


/-! Concrete heaps used by the scenario theorems and counterexamples below. -/

/-- The Scenario A heap: capacity 4, initial pairs `[(0,5),(1,5),(2,5),(3,5)]`. -/
def scenarioA : Heap := scoreHeapNew [(0,5),(1,5),(2,5),(3,5)] 4

/-- A heap of 32 identifiers that all share score 5 (which the constructor
does promote to a uniform segment), after `remove(5)` and `update(5, 5)`:
identifier 5 is re-appended at the top slot of the uniform segment. -/
def uniformReinserted : Heap :=
  (((scoreHeapNew ((List.range 32).map (fun i => (i, (5:Int)))) 32).remove 5).1).update 5 5

/-- Initial pairs of the `joinPartitions` scenario: scores
`0×16, 1×33, 2×15` over identifiers `0..63` (capacity 65). -/
def c5pairs : List (Nat × Int) :=
  ((List.range 16).map (fun i => (i, (0:Int)))) ++
  ((List.range 33).map (fun i => (16 + i, (1:Int)))) ++
  ((List.range 15).map (fun i => (49 + i, (2:Int))))

/-- The `joinPartitions` scenario, middle state: after `update(64, 1)` (which
splits the full middle chunk, leaving the all-score-1 sorted segment id 1
between segment id 0 with max 1 and segment id 2 with min 1) and the removal
of identifiers 33..47, segment id 1 holds only identifier 32. -/
def c5mid : Heap :=
  ((((((((((((((((((((((((((((((((scoreHeapNew c5pairs 65).update 64 1).remove 33).1).remove 34).1).remove 35).1).remove 36).1).remove 37).1).remove 38).1).remove 39).1).remove 40).1).remove 41).1).remove 42).1).remove 43).1).remove 44).1).remove 45).1).remove 46).1).remove 47).1)

/-- The `joinPartitions` scenario, final state: `update(32, 2)` removes the
sole member of segment id 1, emptying it, so `joinPartitions` runs on the
newly adjacent pair (id 0, id 2) whose boundary scores are both 1. -/
def c5fin : Heap := c5mid.update 32 2

/-- Intermediate state 0 of the `joinPartitions` scenario trace (a computed
literal; the `c5chain` lemmas connect consecutive states). -/
def c5state0 : Heap :=
  { lookups := { score := [0, 0, 0, 0, 0, 0, 0, 0, 0, 0, 0, 0, 0, 0, 0, 0, 1, 1, 1, 1, 1, 1, 1, 1, 1, 1, 1, 1, 1, 1, 1, 1, 1, 1, 1, 1, 1, 1, 1, 1, 1, 1, 1, 1, 1, 1, 1, 1, 1, 2, 2, 2, 2, 2, 2, 2, 2, 2, 2, 2, 2, 2, 2, 2, -1], parId := [0, 0, 0, 0, 0, 0, 0, 0, 0, 0, 0, 0, 0, 0, 0, 0, 0, 0, 0, 0, 0, 0, 0, 0, 0, 0, 0, 0, 0, 0, 0, 0, 1, 1, 1, 1, 1, 1, 1, 1, 1, 1, 1, 1, 1, 1, 1, 1, 1, 1, 1, 1, 1, 1, 1, 1, 1, 1, 1, 1, 1, 1, 1, 1, -1], slot := [-1, -1, -1, -1, -1, -1, -1, -1, -1, -1, -1, -1, -1, -1, -1, -1, -1, -1, -1, -1, -1, -1, -1, -1, -1, -1, -1, -1, -1, -1, -1, -1, -1, -1, -1, -1, -1, -1, -1, -1, -1, -1, -1, -1, -1, -1, -1, -1, -1, -1, -1, -1, -1, -1, -1, -1, -1, -1, -1, -1, -1, -1, -1, -1, -1] }, partitions := [Part.s 0 [0, 1, 2, 3, 4, 5, 6, 7, 8, 9, 10, 11, 12, 13, 14, 15, 16, 17, 18, 19, 20, 21, 22, 23, 24, 25, 26, 27, 28, 29, 30, 31] 32 0, Part.s 1 [32, 33, 34, 35, 36, 37, 38, 39, 40, 41, 42, 43, 44, 45, 46, 47, 48, 49, 50, 51, 52, 53, 54, 55, 56, 57, 58, 59, 60, 61, 62, 63] 32 1], partitionIds := [(1, 1), (0, 0)], nextId := 2, partitionLength := 32 }

/-- Intermediate state 1 of the `joinPartitions` scenario trace (a computed
literal; the `c5chain` lemmas connect consecutive states). -/
def c5state1 : Heap :=
  { lookups := { score := [0, 0, 0, 0, 0, 0, 0, 0, 0, 0, 0, 0, 0, 0, 0, 0, 1, 1, 1, 1, 1, 1, 1, 1, 1, 1, 1, 1, 1, 1, 1, 1, 1, 1, 1, 1, 1, 1, 1, 1, 1, 1, 1, 1, 1, 1, 1, 1, 1, 2, 2, 2, 2, 2, 2, 2, 2, 2, 2, 2, 2, 2, 2, 2, 1], parId := [0, 0, 0, 0, 0, 0, 0, 0, 0, 0, 0, 0, 0, 0, 0, 0, 0, 0, 0, 0, 0, 0, 0, 0, 0, 0, 0, 0, 0, 0, 0, 0, 1, 1, 1, 1, 1, 1, 1, 1, 1, 1, 1, 1, 1, 1, 1, 1, 2, 2, 2, 2, 2, 2, 2, 2, 2, 2, 2, 2, 2, 2, 2, 2, 2], slot := [-1, -1, -1, -1, -1, -1, -1, -1, -1, -1, -1, -1, -1, -1, -1, -1, -1, -1, -1, -1, -1, -1, -1, -1, -1, -1, -1, -1, -1, -1, -1, -1, -1, -1, -1, -1, -1, -1, -1, -1, -1, -1, -1, -1, -1, -1, -1, -1, -1, -1, -1, -1, -1, -1, -1, -1, -1, -1, -1, -1, -1, -1, -1, -1, -1] }, partitions := [Part.s 0 [0, 1, 2, 3, 4, 5, 6, 7, 8, 9, 10, 11, 12, 13, 14, 15, 16, 17, 18, 19, 20, 21, 22, 23, 24, 25, 26, 27, 28, 29, 30, 31] 32 0, Part.s 1 [32, 33, 34, 35, 36, 37, 38, 39, 40, 41, 42, 43, 44, 45, 46, 47] 32 1, Part.s 2 [48, 64, 49, 50, 51, 52, 53, 54, 55, 56, 57, 58, 59, 60, 61, 62, 63] 32 1], partitionIds := [(2, 2), (1, 1), (0, 0)], nextId := 3, partitionLength := 32 }

/-- Intermediate state 2 of the `joinPartitions` scenario trace (a computed
literal; the `c5chain` lemmas connect consecutive states). -/
def c5state2 : Heap :=
  { lookups := { score := [0, 0, 0, 0, 0, 0, 0, 0, 0, 0, 0, 0, 0, 0, 0, 0, 1, 1, 1, 1, 1, 1, 1, 1, 1, 1, 1, 1, 1, 1, 1, 1, 1, 1, 1, 1, 1, 1, 1, 1, 1, 1, 1, 1, 1, 1, 1, 1, 1, 2, 2, 2, 2, 2, 2, 2, 2, 2, 2, 2, 2, 2, 2, 2, 1], parId := [0, 0, 0, 0, 0, 0, 0, 0, 0, 0, 0, 0, 0, 0, 0, 0, 0, 0, 0, 0, 0, 0, 0, 0, 0, 0, 0, 0, 0, 0, 0, 0, 1, -1, 1, 1, 1, 1, 1, 1, 1, 1, 1, 1, 1, 1, 1, 1, 2, 2, 2, 2, 2, 2, 2, 2, 2, 2, 2, 2, 2, 2, 2, 2, 2], slot := [-1, -1, -1, -1, -1, -1, -1, -1, -1, -1, -1, -1, -1, -1, -1, -1, -1, -1, -1, -1, -1, -1, -1, -1, -1, -1, -1, -1, -1, -1, -1, -1, -1, -1, -1, -1, -1, -1, -1, -1, -1, -1, -1, -1, -1, -1, -1, -1, -1, -1, -1, -1, -1, -1, -1, -1, -1, -1, -1, -1, -1, -1, -1, -1, -1] }, partitions := [Part.s 0 [0, 1, 2, 3, 4, 5, 6, 7, 8, 9, 10, 11, 12, 13, 14, 15, 16, 17, 18, 19, 20, 21, 22, 23, 24, 25, 26, 27, 28, 29, 30, 31] 32 0, Part.s 1 [32, 34, 35, 36, 37, 38, 39, 40, 41, 42, 43, 44, 45, 46, 47] 32 1, Part.s 2 [48, 64, 49, 50, 51, 52, 53, 54, 55, 56, 57, 58, 59, 60, 61, 62, 63] 32 1], partitionIds := [(2, 2), (1, 1), (0, 0)], nextId := 3, partitionLength := 32 }

/-- Intermediate state 3 of the `joinPartitions` scenario trace (a computed
literal; the `c5chain` lemmas connect consecutive states). -/
def c5state3 : Heap :=
  { lookups := { score := [0, 0, 0, 0, 0, 0, 0, 0, 0, 0, 0, 0, 0, 0, 0, 0, 1, 1, 1, 1, 1, 1, 1, 1, 1, 1, 1, 1, 1, 1, 1, 1, 1, 1, 1, 1, 1, 1, 1, 1, 1, 1, 1, 1, 1, 1, 1, 1, 1, 2, 2, 2, 2, 2, 2, 2, 2, 2, 2, 2, 2, 2, 2, 2, 1], parId := [0, 0, 0, 0, 0, 0, 0, 0, 0, 0, 0, 0, 0, 0, 0, 0, 0, 0, 0, 0, 0, 0, 0, 0, 0, 0, 0, 0, 0, 0, 0, 0, 1, -1, -1, 1, 1, 1, 1, 1, 1, 1, 1, 1, 1, 1, 1, 1, 2, 2, 2, 2, 2, 2, 2, 2, 2, 2, 2, 2, 2, 2, 2, 2, 2], slot := [-1, -1, -1, -1, -1, -1, -1, -1, -1, -1, -1, -1, -1, -1, -1, -1, -1, -1, -1, -1, -1, -1, -1, -1, -1, -1, -1, -1, -1, -1, -1, -1, -1, -1, -1, -1, -1, -1, -1, -1, -1, -1, -1, -1, -1, -1, -1, -1, -1, -1, -1, -1, -1, -1, -1, -1, -1, -1, -1, -1, -1, -1, -1, -1, -1] }, partitions := [Part.s 0 [0, 1, 2, 3, 4, 5, 6, 7, 8, 9, 10, 11, 12, 13, 14, 15, 16, 17, 18, 19, 20, 21, 22, 23, 24, 25, 26, 27, 28, 29, 30, 31] 32 0, Part.s 1 [32, 35, 36, 37, 38, 39, 40, 41, 42, 43, 44, 45, 46, 47] 32 1, Part.s 2 [48, 64, 49, 50, 51, 52, 53, 54, 55, 56, 57, 58, 59, 60, 61, 62, 63] 32 1], partitionIds := [(2, 2), (1, 1), (0, 0)], nextId := 3, partitionLength := 32 }

/-- Intermediate state 4 of the `joinPartitions` scenario trace (a computed
literal; the `c5chain` lemmas connect consecutive states). -/
def c5state4 : Heap :=
  { lookups := { score := [0, 0, 0, 0, 0, 0, 0, 0, 0, 0, 0, 0, 0, 0, 0, 0, 1, 1, 1, 1, 1, 1, 1, 1, 1, 1, 1, 1, 1, 1, 1, 1, 1, 1, 1, 1, 1, 1, 1, 1, 1, 1, 1, 1, 1, 1, 1, 1, 1, 2, 2, 2, 2, 2, 2, 2, 2, 2, 2, 2, 2, 2, 2, 2, 1], parId := [0, 0, 0, 0, 0, 0, 0, 0, 0, 0, 0, 0, 0, 0, 0, 0, 0, 0, 0, 0, 0, 0, 0, 0, 0, 0, 0, 0, 0, 0, 0, 0, 1, -1, -1, -1, 1, 1, 1, 1, 1, 1, 1, 1, 1, 1, 1, 1, 2, 2, 2, 2, 2, 2, 2, 2, 2, 2, 2, 2, 2, 2, 2, 2, 2], slot := [-1, -1, -1, -1, -1, -1, -1, -1, -1, -1, -1, -1, -1, -1, -1, -1, -1, -1, -1, -1, -1, -1, -1, -1, -1, -1, -1, -1, -1, -1, -1, -1, -1, -1, -1, -1, -1, -1, -1, -1, -1, -1, -1, -1, -1, -1, -1, -1, -1, -1, -1, -1, -1, -1, -1, -1, -1, -1, -1, -1, -1, -1, -1, -1, -1] }, partitions := [Part.s 0 [0, 1, 2, 3, 4, 5, 6, 7, 8, 9, 10, 11, 12, 13, 14, 15, 16, 17, 18, 19, 20, 21, 22, 23, 24, 25, 26, 27, 28, 29, 30, 31] 32 0, Part.s 1 [32, 36, 37, 38, 39, 40, 41, 42, 43, 44, 45, 46, 47] 32 1, Part.s 2 [48, 64, 49, 50, 51, 52, 53, 54, 55, 56, 57, 58, 59, 60, 61, 62, 63] 32 1], partitionIds := [(2, 2), (1, 1), (0, 0)], nextId := 3, partitionLength := 32 }

/-- Intermediate state 5 of the `joinPartitions` scenario trace (a computed
literal; the `c5chain` lemmas connect consecutive states). -/
def c5state5 : Heap :=
  { lookups := { score := [0, 0, 0, 0, 0, 0, 0, 0, 0, 0, 0, 0, 0, 0, 0, 0, 1, 1, 1, 1, 1, 1, 1, 1, 1, 1, 1, 1, 1, 1, 1, 1, 1, 1, 1, 1, 1, 1, 1, 1, 1, 1, 1, 1, 1, 1, 1, 1, 1, 2, 2, 2, 2, 2, 2, 2, 2, 2, 2, 2, 2, 2, 2, 2, 1], parId := [0, 0, 0, 0, 0, 0, 0, 0, 0, 0, 0, 0, 0, 0, 0, 0, 0, 0, 0, 0, 0, 0, 0, 0, 0, 0, 0, 0, 0, 0, 0, 0, 1, -1, -1, -1, -1, 1, 1, 1, 1, 1, 1, 1, 1, 1, 1, 1, 2, 2, 2, 2, 2, 2, 2, 2, 2, 2, 2, 2, 2, 2, 2, 2, 2], slot := [-1, -1, -1, -1, -1, -1, -1, -1, -1, -1, -1, -1, -1, -1, -1, -1, -1, -1, -1, -1, -1, -1, -1, -1, -1, -1, -1, -1, -1, -1, -1, -1, -1, -1, -1, -1, -1, -1, -1, -1, -1, -1, -1, -1, -1, -1, -1, -1, -1, -1, -1, -1, -1, -1, -1, -1, -1, -1, -1, -1, -1, -1, -1, -1, -1] }, partitions := [Part.s 0 [0, 1, 2, 3, 4, 5, 6, 7, 8, 9, 10, 11, 12, 13, 14, 15, 16, 17, 18, 19, 20, 21, 22, 23, 24, 25, 26, 27, 28, 29, 30, 31] 32 0, Part.s 1 [32, 37, 38, 39, 40, 41, 42, 43, 44, 45, 46, 47] 32 1, Part.s 2 [48, 64, 49, 50, 51, 52, 53, 54, 55, 56, 57, 58, 59, 60, 61, 62, 63] 32 1], partitionIds := [(2, 2), (1, 1), (0, 0)], nextId := 3, partitionLength := 32 }

/-- Intermediate state 6 of the `joinPartitions` scenario trace (a computed
literal; the `c5chain` lemmas connect consecutive states). -/
def c5state6 : Heap :=
  { lookups := { score := [0, 0, 0, 0, 0, 0, 0, 0, 0, 0, 0, 0, 0, 0, 0, 0, 1, 1, 1, 1, 1, 1, 1, 1, 1, 1, 1, 1, 1, 1, 1, 1, 1, 1, 1, 1, 1, 1, 1, 1, 1, 1, 1, 1, 1, 1, 1, 1, 1, 2, 2, 2, 2, 2, 2, 2, 2, 2, 2, 2, 2, 2, 2, 2, 1], parId := [0, 0, 0, 0, 0, 0, 0, 0, 0, 0, 0, 0, 0, 0, 0, 0, 0, 0, 0, 0, 0, 0, 0, 0, 0, 0, 0, 0, 0, 0, 0, 0, 1, -1, -1, -1, -1, -1, 1, 1, 1, 1, 1, 1, 1, 1, 1, 1, 2, 2, 2, 2, 2, 2, 2, 2, 2, 2, 2, 2, 2, 2, 2, 2, 2], slot := [-1, -1, -1, -1, -1, -1, -1, -1, -1, -1, -1, -1, -1, -1, -1, -1, -1, -1, -1, -1, -1, -1, -1, -1, -1, -1, -1, -1, -1, -1, -1, -1, -1, -1, -1, -1, -1, -1, -1, -1, -1, -1, -1, -1, -1, -1, -1, -1, -1, -1, -1, -1, -1, -1, -1, -1, -1, -1, -1, -1, -1, -1, -1, -1, -1] }, partitions := [Part.s 0 [0, 1, 2, 3, 4, 5, 6, 7, 8, 9, 10, 11, 12, 13, 14, 15, 16, 17, 18, 19, 20, 21, 22, 23, 24, 25, 26, 27, 28, 29, 30, 31] 32 0, Part.s 1 [32, 38, 39, 40, 41, 42, 43, 44, 45, 46, 47] 32 1, Part.s 2 [48, 64, 49, 50, 51, 52, 53, 54, 55, 56, 57, 58, 59, 60, 61, 62, 63] 32 1], partitionIds := [(2, 2), (1, 1), (0, 0)], nextId := 3, partitionLength := 32 }

/-- Intermediate state 7 of the `joinPartitions` scenario trace (a computed
literal; the `c5chain` lemmas connect consecutive states). -/
def c5state7 : Heap :=
  { lookups := { score := [0, 0, 0, 0, 0, 0, 0, 0, 0, 0, 0, 0, 0, 0, 0, 0, 1, 1, 1, 1, 1, 1, 1, 1, 1, 1, 1, 1, 1, 1, 1, 1, 1, 1, 1, 1, 1, 1, 1, 1, 1, 1, 1, 1, 1, 1, 1, 1, 1, 2, 2, 2, 2, 2, 2, 2, 2, 2, 2, 2, 2, 2, 2, 2, 1], parId := [0, 0, 0, 0, 0, 0, 0, 0, 0, 0, 0, 0, 0, 0, 0, 0, 0, 0, 0, 0, 0, 0, 0, 0, 0, 0, 0, 0, 0, 0, 0, 0, 1, -1, -1, -1, -1, -1, -1, 1, 1, 1, 1, 1, 1, 1, 1, 1, 2, 2, 2, 2, 2, 2, 2, 2, 2, 2, 2, 2, 2, 2, 2, 2, 2], slot := [-1, -1, -1, -1, -1, -1, -1, -1, -1, -1, -1, -1, -1, -1, -1, -1, -1, -1, -1, -1, -1, -1, -1, -1, -1, -1, -1, -1, -1, -1, -1, -1, -1, -1, -1, -1, -1, -1, -1, -1, -1, -1, -1, -1, -1, -1, -1, -1, -1, -1, -1, -1, -1, -1, -1, -1, -1, -1, -1, -1, -1, -1, -1, -1, -1] }, partitions := [Part.s 0 [0, 1, 2, 3, 4, 5, 6, 7, 8, 9, 10, 11, 12, 13, 14, 15, 16, 17, 18, 19, 20, 21, 22, 23, 24, 25, 26, 27, 28, 29, 30, 31] 32 0, Part.s 1 [32, 39, 40, 41, 42, 43, 44, 45, 46, 47] 32 1, Part.s 2 [48, 64, 49, 50, 51, 52, 53, 54, 55, 56, 57, 58, 59, 60, 61, 62, 63] 32 1], partitionIds := [(2, 2), (1, 1), (0, 0)], nextId := 3, partitionLength := 32 }

/-- Intermediate state 8 of the `joinPartitions` scenario trace (a computed
literal; the `c5chain` lemmas connect consecutive states). -/
def c5state8 : Heap :=
  { lookups := { score := [0, 0, 0, 0, 0, 0, 0, 0, 0, 0, 0, 0, 0, 0, 0, 0, 1, 1, 1, 1, 1, 1, 1, 1, 1, 1, 1, 1, 1, 1, 1, 1, 1, 1, 1, 1, 1, 1, 1, 1, 1, 1, 1, 1, 1, 1, 1, 1, 1, 2, 2, 2, 2, 2, 2, 2, 2, 2, 2, 2, 2, 2, 2, 2, 1], parId := [0, 0, 0, 0, 0, 0, 0, 0, 0, 0, 0, 0, 0, 0, 0, 0, 0, 0, 0, 0, 0, 0, 0, 0, 0, 0, 0, 0, 0, 0, 0, 0, 1, -1, -1, -1, -1, -1, -1, -1, 1, 1, 1, 1, 1, 1, 1, 1, 2, 2, 2, 2, 2, 2, 2, 2, 2, 2, 2, 2, 2, 2, 2, 2, 2], slot := [-1, -1, -1, -1, -1, -1, -1, -1, -1, -1, -1, -1, -1, -1, -1, -1, -1, -1, -1, -1, -1, -1, -1, -1, -1, -1, -1, -1, -1, -1, -1, -1, -1, -1, -1, -1, -1, -1, -1, -1, -1, -1, -1, -1, -1, -1, -1, -1, -1, -1, -1, -1, -1, -1, -1, -1, -1, -1, -1, -1, -1, -1, -1, -1, -1] }, partitions := [Part.s 0 [0, 1, 2, 3, 4, 5, 6, 7, 8, 9, 10, 11, 12, 13, 14, 15, 16, 17, 18, 19, 20, 21, 22, 23, 24, 25, 26, 27, 28, 29, 30, 31] 32 0, Part.s 1 [32, 40, 41, 42, 43, 44, 45, 46, 47] 32 1, Part.s 2 [48, 64, 49, 50, 51, 52, 53, 54, 55, 56, 57, 58, 59, 60, 61, 62, 63] 32 1], partitionIds := [(2, 2), (1, 1), (0, 0)], nextId := 3, partitionLength := 32 }

/-- Intermediate state 9 of the `joinPartitions` scenario trace (a computed
literal; the `c5chain` lemmas connect consecutive states). -/
def c5state9 : Heap :=
  { lookups := { score := [0, 0, 0, 0, 0, 0, 0, 0, 0, 0, 0, 0, 0, 0, 0, 0, 1, 1, 1, 1, 1, 1, 1, 1, 1, 1, 1, 1, 1, 1, 1, 1, 1, 1, 1, 1, 1, 1, 1, 1, 1, 1, 1, 1, 1, 1, 1, 1, 1, 2, 2, 2, 2, 2, 2, 2, 2, 2, 2, 2, 2, 2, 2, 2, 1], parId := [0, 0, 0, 0, 0, 0, 0, 0, 0, 0, 0, 0, 0, 0, 0, 0, 0, 0, 0, 0, 0, 0, 0, 0, 0, 0, 0, 0, 0, 0, 0, 0, 1, -1, -1, -1, -1, -1, -1, -1, -1, 1, 1, 1, 1, 1, 1, 1, 2, 2, 2, 2, 2, 2, 2, 2, 2, 2, 2, 2, 2, 2, 2, 2, 2], slot := [-1, -1, -1, -1, -1, -1, -1, -1, -1, -1, -1, -1, -1, -1, -1, -1, -1, -1, -1, -1, -1, -1, -1, -1, -1, -1, -1, -1, -1, -1, -1, -1, -1, -1, -1, -1, -1, -1, -1, -1, -1, -1, -1, -1, -1, -1, -1, -1, -1, -1, -1, -1, -1, -1, -1, -1, -1, -1, -1, -1, -1, -1, -1, -1, -1] }, partitions := [Part.s 0 [0, 1, 2, 3, 4, 5, 6, 7, 8, 9, 10, 11, 12, 13, 14, 15, 16, 17, 18, 19, 20, 21, 22, 23, 24, 25, 26, 27, 28, 29, 30, 31] 32 0, Part.s 1 [32, 41, 42, 43, 44, 45, 46, 47] 32 1, Part.s 2 [48, 64, 49, 50, 51, 52, 53, 54, 55, 56, 57, 58, 59, 60, 61, 62, 63] 32 1], partitionIds := [(2, 2), (1, 1), (0, 0)], nextId := 3, partitionLength := 32 }

/-- Intermediate state 10 of the `joinPartitions` scenario trace (a computed
literal; the `c5chain` lemmas connect consecutive states). -/
def c5state10 : Heap :=
  { lookups := { score := [0, 0, 0, 0, 0, 0, 0, 0, 0, 0, 0, 0, 0, 0, 0, 0, 1, 1, 1, 1, 1, 1, 1, 1, 1, 1, 1, 1, 1, 1, 1, 1, 1, 1, 1, 1, 1, 1, 1, 1, 1, 1, 1, 1, 1, 1, 1, 1, 1, 2, 2, 2, 2, 2, 2, 2, 2, 2, 2, 2, 2, 2, 2, 2, 1], parId := [0, 0, 0, 0, 0, 0, 0, 0, 0, 0, 0, 0, 0, 0, 0, 0, 0, 0, 0, 0, 0, 0, 0, 0, 0, 0, 0, 0, 0, 0, 0, 0, 1, -1, -1, -1, -1, -1, -1, -1, -1, -1, 1, 1, 1, 1, 1, 1, 2, 2, 2, 2, 2, 2, 2, 2, 2, 2, 2, 2, 2, 2, 2, 2, 2], slot := [-1, -1, -1, -1, -1, -1, -1, -1, -1, -1, -1, -1, -1, -1, -1, -1, -1, -1, -1, -1, -1, -1, -1, -1, -1, -1, -1, -1, -1, -1, -1, -1, -1, -1, -1, -1, -1, -1, -1, -1, -1, -1, -1, -1, -1, -1, -1, -1, -1, -1, -1, -1, -1, -1, -1, -1, -1, -1, -1, -1, -1, -1, -1, -1, -1] }, partitions := [Part.s 0 [0, 1, 2, 3, 4, 5, 6, 7, 8, 9, 10, 11, 12, 13, 14, 15, 16, 17, 18, 19, 20, 21, 22, 23, 24, 25, 26, 27, 28, 29, 30, 31] 32 0, Part.s 1 [32, 42, 43, 44, 45, 46, 47] 32 1, Part.s 2 [48, 64, 49, 50, 51, 52, 53, 54, 55, 56, 57, 58, 59, 60, 61, 62, 63] 32 1], partitionIds := [(2, 2), (1, 1), (0, 0)], nextId := 3, partitionLength := 32 }

/-- Intermediate state 11 of the `joinPartitions` scenario trace (a computed
literal; the `c5chain` lemmas connect consecutive states). -/
def c5state11 : Heap :=
  { lookups := { score := [0, 0, 0, 0, 0, 0, 0, 0, 0, 0, 0, 0, 0, 0, 0, 0, 1, 1, 1, 1, 1, 1, 1, 1, 1, 1, 1, 1, 1, 1, 1, 1, 1, 1, 1, 1, 1, 1, 1, 1, 1, 1, 1, 1, 1, 1, 1, 1, 1, 2, 2, 2, 2, 2, 2, 2, 2, 2, 2, 2, 2, 2, 2, 2, 1], parId := [0, 0, 0, 0, 0, 0, 0, 0, 0, 0, 0, 0, 0, 0, 0, 0, 0, 0, 0, 0, 0, 0, 0, 0, 0, 0, 0, 0, 0, 0, 0, 0, 1, -1, -1, -1, -1, -1, -1, -1, -1, -1, -1, 1, 1, 1, 1, 1, 2, 2, 2, 2, 2, 2, 2, 2, 2, 2, 2, 2, 2, 2, 2, 2, 2], slot := [-1, -1, -1, -1, -1, -1, -1, -1, -1, -1, -1, -1, -1, -1, -1, -1, -1, -1, -1, -1, -1, -1, -1, -1, -1, -1, -1, -1, -1, -1, -1, -1, -1, -1, -1, -1, -1, -1, -1, -1, -1, -1, -1, -1, -1, -1, -1, -1, -1, -1, -1, -1, -1, -1, -1, -1, -1, -1, -1, -1, -1, -1, -1, -1, -1] }, partitions := [Part.s 0 [0, 1, 2, 3, 4, 5, 6, 7, 8, 9, 10, 11, 12, 13, 14, 15, 16, 17, 18, 19, 20, 21, 22, 23, 24, 25, 26, 27, 28, 29, 30, 31] 32 0, Part.s 1 [32, 43, 44, 45, 46, 47] 32 1, Part.s 2 [48, 64, 49, 50, 51, 52, 53, 54, 55, 56, 57, 58, 59, 60, 61, 62, 63] 32 1], partitionIds := [(2, 2), (1, 1), (0, 0)], nextId := 3, partitionLength := 32 }

/-- Intermediate state 12 of the `joinPartitions` scenario trace (a computed
literal; the `c5chain` lemmas connect consecutive states). -/
def c5state12 : Heap :=
  { lookups := { score := [0, 0, 0, 0, 0, 0, 0, 0, 0, 0, 0, 0, 0, 0, 0, 0, 1, 1, 1, 1, 1, 1, 1, 1, 1, 1, 1, 1, 1, 1, 1, 1, 1, 1, 1, 1, 1, 1, 1, 1, 1, 1, 1, 1, 1, 1, 1, 1, 1, 2, 2, 2, 2, 2, 2, 2, 2, 2, 2, 2, 2, 2, 2, 2, 1], parId := [0, 0, 0, 0, 0, 0, 0, 0, 0, 0, 0, 0, 0, 0, 0, 0, 0, 0, 0, 0, 0, 0, 0, 0, 0, 0, 0, 0, 0, 0, 0, 0, 1, -1, -1, -1, -1, -1, -1, -1, -1, -1, -1, -1, 1, 1, 1, 1, 2, 2, 2, 2, 2, 2, 2, 2, 2, 2, 2, 2, 2, 2, 2, 2, 2], slot := [-1, -1, -1, -1, -1, -1, -1, -1, -1, -1, -1, -1, -1, -1, -1, -1, -1, -1, -1, -1, -1, -1, -1, -1, -1, -1, -1, -1, -1, -1, -1, -1, -1, -1, -1, -1, -1, -1, -1, -1, -1, -1, -1, -1, -1, -1, -1, -1, -1, -1, -1, -1, -1, -1, -1, -1, -1, -1, -1, -1, -1, -1, -1, -1, -1] }, partitions := [Part.s 0 [0, 1, 2, 3, 4, 5, 6, 7, 8, 9, 10, 11, 12, 13, 14, 15, 16, 17, 18, 19, 20, 21, 22, 23, 24, 25, 26, 27, 28, 29, 30, 31] 32 0, Part.s 1 [32, 44, 45, 46, 47] 32 1, Part.s 2 [48, 64, 49, 50, 51, 52, 53, 54, 55, 56, 57, 58, 59, 60, 61, 62, 63] 32 1], partitionIds := [(2, 2), (1, 1), (0, 0)], nextId := 3, partitionLength := 32 }

/-- Intermediate state 13 of the `joinPartitions` scenario trace (a computed
literal; the `c5chain` lemmas connect consecutive states). -/
def c5state13 : Heap :=
  { lookups := { score := [0, 0, 0, 0, 0, 0, 0, 0, 0, 0, 0, 0, 0, 0, 0, 0, 1, 1, 1, 1, 1, 1, 1, 1, 1, 1, 1, 1, 1, 1, 1, 1, 1, 1, 1, 1, 1, 1, 1, 1, 1, 1, 1, 1, 1, 1, 1, 1, 1, 2, 2, 2, 2, 2, 2, 2, 2, 2, 2, 2, 2, 2, 2, 2, 1], parId := [0, 0, 0, 0, 0, 0, 0, 0, 0, 0, 0, 0, 0, 0, 0, 0, 0, 0, 0, 0, 0, 0, 0, 0, 0, 0, 0, 0, 0, 0, 0, 0, 1, -1, -1, -1, -1, -1, -1, -1, -1, -1, -1, -1, -1, 1, 1, 1, 2, 2, 2, 2, 2, 2, 2, 2, 2, 2, 2, 2, 2, 2, 2, 2, 2], slot := [-1, -1, -1, -1, -1, -1, -1, -1, -1, -1, -1, -1, -1, -1, -1, -1, -1, -1, -1, -1, -1, -1, -1, -1, -1, -1, -1, -1, -1, -1, -1, -1, -1, -1, -1, -1, -1, -1, -1, -1, -1, -1, -1, -1, -1, -1, -1, -1, -1, -1, -1, -1, -1, -1, -1, -1, -1, -1, -1, -1, -1, -1, -1, -1, -1] }, partitions := [Part.s 0 [0, 1, 2, 3, 4, 5, 6, 7, 8, 9, 10, 11, 12, 13, 14, 15, 16, 17, 18, 19, 20, 21, 22, 23, 24, 25, 26, 27, 28, 29, 30, 31] 32 0, Part.s 1 [32, 45, 46, 47] 32 1, Part.s 2 [48, 64, 49, 50, 51, 52, 53, 54, 55, 56, 57, 58, 59, 60, 61, 62, 63] 32 1], partitionIds := [(2, 2), (1, 1), (0, 0)], nextId := 3, partitionLength := 32 }

/-- Intermediate state 14 of the `joinPartitions` scenario trace (a computed
literal; the `c5chain` lemmas connect consecutive states). -/
def c5state14 : Heap :=
  { lookups := { score := [0, 0, 0, 0, 0, 0, 0, 0, 0, 0, 0, 0, 0, 0, 0, 0, 1, 1, 1, 1, 1, 1, 1, 1, 1, 1, 1, 1, 1, 1, 1, 1, 1, 1, 1, 1, 1, 1, 1, 1, 1, 1, 1, 1, 1, 1, 1, 1, 1, 2, 2, 2, 2, 2, 2, 2, 2, 2, 2, 2, 2, 2, 2, 2, 1], parId := [0, 0, 0, 0, 0, 0, 0, 0, 0, 0, 0, 0, 0, 0, 0, 0, 0, 0, 0, 0, 0, 0, 0, 0, 0, 0, 0, 0, 0, 0, 0, 0, 1, -1, -1, -1, -1, -1, -1, -1, -1, -1, -1, -1, -1, -1, 1, 1, 2, 2, 2, 2, 2, 2, 2, 2, 2, 2, 2, 2, 2, 2, 2, 2, 2], slot := [-1, -1, -1, -1, -1, -1, -1, -1, -1, -1, -1, -1, -1, -1, -1, -1, -1, -1, -1, -1, -1, -1, -1, -1, -1, -1, -1, -1, -1, -1, -1, -1, -1, -1, -1, -1, -1, -1, -1, -1, -1, -1, -1, -1, -1, -1, -1, -1, -1, -1, -1, -1, -1, -1, -1, -1, -1, -1, -1, -1, -1, -1, -1, -1, -1] }, partitions := [Part.s 0 [0, 1, 2, 3, 4, 5, 6, 7, 8, 9, 10, 11, 12, 13, 14, 15, 16, 17, 18, 19, 20, 21, 22, 23, 24, 25, 26, 27, 28, 29, 30, 31] 32 0, Part.s 1 [32, 46, 47] 32 1, Part.s 2 [48, 64, 49, 50, 51, 52, 53, 54, 55, 56, 57, 58, 59, 60, 61, 62, 63] 32 1], partitionIds := [(2, 2), (1, 1), (0, 0)], nextId := 3, partitionLength := 32 }

/-- Intermediate state 15 of the `joinPartitions` scenario trace (a computed
literal; the `c5chain` lemmas connect consecutive states). -/
def c5state15 : Heap :=
  { lookups := { score := [0, 0, 0, 0, 0, 0, 0, 0, 0, 0, 0, 0, 0, 0, 0, 0, 1, 1, 1, 1, 1, 1, 1, 1, 1, 1, 1, 1, 1, 1, 1, 1, 1, 1, 1, 1, 1, 1, 1, 1, 1, 1, 1, 1, 1, 1, 1, 1, 1, 2, 2, 2, 2, 2, 2, 2, 2, 2, 2, 2, 2, 2, 2, 2, 1], parId := [0, 0, 0, 0, 0, 0, 0, 0, 0, 0, 0, 0, 0, 0, 0, 0, 0, 0, 0, 0, 0, 0, 0, 0, 0, 0, 0, 0, 0, 0, 0, 0, 1, -1, -1, -1, -1, -1, -1, -1, -1, -1, -1, -1, -1, -1, -1, 1, 2, 2, 2, 2, 2, 2, 2, 2, 2, 2, 2, 2, 2, 2, 2, 2, 2], slot := [-1, -1, -1, -1, -1, -1, -1, -1, -1, -1, -1, -1, -1, -1, -1, -1, -1, -1, -1, -1, -1, -1, -1, -1, -1, -1, -1, -1, -1, -1, -1, -1, -1, -1, -1, -1, -1, -1, -1, -1, -1, -1, -1, -1, -1, -1, -1, -1, -1, -1, -1, -1, -1, -1, -1, -1, -1, -1, -1, -1, -1, -1, -1, -1, -1] }, partitions := [Part.s 0 [0, 1, 2, 3, 4, 5, 6, 7, 8, 9, 10, 11, 12, 13, 14, 15, 16, 17, 18, 19, 20, 21, 22, 23, 24, 25, 26, 27, 28, 29, 30, 31] 32 0, Part.s 1 [32, 47] 32 1, Part.s 2 [48, 64, 49, 50, 51, 52, 53, 54, 55, 56, 57, 58, 59, 60, 61, 62, 63] 32 1], partitionIds := [(2, 2), (1, 1), (0, 0)], nextId := 3, partitionLength := 32 }

/-- Intermediate state 16 of the `joinPartitions` scenario trace (a computed
literal; the `c5chain` lemmas connect consecutive states). -/
def c5state16 : Heap :=
  { lookups := { score := [0, 0, 0, 0, 0, 0, 0, 0, 0, 0, 0, 0, 0, 0, 0, 0, 1, 1, 1, 1, 1, 1, 1, 1, 1, 1, 1, 1, 1, 1, 1, 1, 1, 1, 1, 1, 1, 1, 1, 1, 1, 1, 1, 1, 1, 1, 1, 1, 1, 2, 2, 2, 2, 2, 2, 2, 2, 2, 2, 2, 2, 2, 2, 2, 1], parId := [0, 0, 0, 0, 0, 0, 0, 0, 0, 0, 0, 0, 0, 0, 0, 0, 0, 0, 0, 0, 0, 0, 0, 0, 0, 0, 0, 0, 0, 0, 0, 0, 1, -1, -1, -1, -1, -1, -1, -1, -1, -1, -1, -1, -1, -1, -1, -1, 2, 2, 2, 2, 2, 2, 2, 2, 2, 2, 2, 2, 2, 2, 2, 2, 2], slot := [-1, -1, -1, -1, -1, -1, -1, -1, -1, -1, -1, -1, -1, -1, -1, -1, -1, -1, -1, -1, -1, -1, -1, -1, -1, -1, -1, -1, -1, -1, -1, -1, -1, -1, -1, -1, -1, -1, -1, -1, -1, -1, -1, -1, -1, -1, -1, -1, -1, -1, -1, -1, -1, -1, -1, -1, -1, -1, -1, -1, -1, -1, -1, -1, -1] }, partitions := [Part.s 0 [0, 1, 2, 3, 4, 5, 6, 7, 8, 9, 10, 11, 12, 13, 14, 15, 16, 17, 18, 19, 20, 21, 22, 23, 24, 25, 26, 27, 28, 29, 30, 31] 32 0, Part.s 1 [32] 32 1, Part.s 2 [48, 64, 49, 50, 51, 52, 53, 54, 55, 56, 57, 58, 59, 60, 61, 62, 63] 32 1], partitionIds := [(2, 2), (1, 1), (0, 0)], nextId := 3, partitionLength := 32 }

/-- Intermediate state 17 of the `joinPartitions` scenario trace (a computed
literal; the `c5chain` lemmas connect consecutive states). -/
def c5state17 : Heap :=
  { lookups := { score := [0, 0, 0, 0, 0, 0, 0, 0, 0, 0, 0, 0, 0, 0, 0, 0, 1, 1, 1, 1, 1, 1, 1, 1, 1, 1, 1, 1, 1, 1, 1, 1, 2, 1, 1, 1, 1, 1, 1, 1, 1, 1, 1, 1, 1, 1, 1, 1, 1, 2, 2, 2, 2, 2, 2, 2, 2, 2, 2, 2, 2, 2, 2, 2, 1], parId := [0, 0, 0, 0, 0, 0, 0, 0, 0, 0, 0, 0, 0, 0, 0, 0, 0, 0, 0, 0, 0, 0, 0, 0, 0, 0, 0, 0, 0, 0, 0, 0, 2, -1, -1, -1, -1, -1, -1, -1, -1, -1, -1, -1, -1, -1, -1, -1, 2, 2, 2, 2, 2, 2, 2, 2, 2, 2, 2, 2, 2, 2, 2, 2, 2], slot := [-1, -1, -1, -1, -1, -1, -1, -1, -1, -1, -1, -1, -1, -1, -1, -1, -1, -1, -1, -1, -1, -1, -1, -1, -1, -1, -1, -1, -1, -1, -1, -1, -1, -1, -1, -1, -1, -1, -1, -1, -1, -1, -1, -1, -1, -1, -1, -1, -1, -1, -1, -1, -1, -1, -1, -1, -1, -1, -1, -1, -1, -1, -1, -1, -1] }, partitions := [Part.s 0 [0, 1, 2, 3, 4, 5, 6, 7, 8, 9, 10, 11, 12, 13, 14, 15, 16, 17, 18, 19, 20, 21, 22, 23, 24, 25, 26, 27, 28, 29, 30, 31] 32 0, Part.s 2 [48, 64, 32, 49, 50, 51, 52, 53, 54, 55, 56, 57, 58, 59, 60, 61, 62, 63] 32 1], partitionIds := [(2, 1), (2, 2), (1, 1), (0, 0)], nextId := 3, partitionLength := 32 }


/-- A three-way comparator over `n` conceptually sorted positions: the sign
sequence is non-increasing (positive answers precede zero answers precede
negative answers), as produced by comparing a fixed probe against an
ascending sequence. -/
def SignSorted (n : Nat) (fn : Nat → Int) : Prop :=
  ∀ i j : Nat, i < j → j < n → (0 < fn j → 0 < fn i) ∧ (fn i < 0 → fn j < 0)

/-- Reference merge written from the spec's contract (for the refinement
theorem about `interleaveArrays`): consume one element per step, taking from
`B` exactly when the comparator answers negative and otherwise from `A` — so
on a zero (equal) comparison the element of `A` is emitted first. -/
def mergeRefGo (a b : List Int) (fn : Nat → Nat → Int) : Nat → Nat → Nat → List Int
  | 0, _, _ => []
  | fuel + 1, j, k =>
    if j = a.length then b.drop k
    else if k = b.length then a.drop j
    else if fn j k < 0 then b.getD k 0 :: mergeRefGo a b fn fuel j (k + 1)
    else a.getD j 0 :: mergeRefGo a b fn fuel (j + 1) k

/-- Reference merge over whole sequences. -/
def mergeRef (a b : List Int) (fn : Nat → Nat → Int) : List Int :=
  mergeRefGo a b fn (a.length + b.length) 0 0

/-- Backing capacity of a sorted segment (0 for a uniform segment, whose
backing grows on demand and is never consulted). -/
def Part.cap : Part → Nat
  | .s _ _ c _ => c
  | .u _ _ _ => 0

/-- A two-segment heap used to witness the `joinPartitions` characterization:
segment id 0 is uniform at score 5 over slots `[0, 1, -1]` (identifier 2
tombstoned), segment id 1 is sorted holding `[3, 4]`, both at score 5. -/
def joinWitnessHeap : Heap :=
  { lookups := ⟨[5, 5, 5, 5, 5], [0, 0, -1, 1, 1], [0, 1, -1, -1, -1]⟩,
    partitions := [Part.u 0 [0, 1, -1] 5, Part.s 1 [3, 4] 32 5],
    partitionIds := [(0, 0), (1, 1)],
    nextId := 10, partitionLength := 32 }

/-- The live member list of a segment: the whole logical region for a sorted
partition, the non-tombstoned entries for a uniform partition. -/
def Part.members : Part → List Int
  | .s _ idx _ _ => idx
  | .u _ idx _ => idx.filter (fun v => decide (0 ≤ v))

/-- The strict score-then-identifier order underlying every sorted segment. -/
def keyLt (L : Lookups) (x y : Int) : Prop :=
  L.scoreOf x < L.scoreOf y ∨ (L.scoreOf x = L.scoreOf y ∧ x < y)

/-- A public operation on the heap. -/
inductive HOp where
  | upd (i : Nat) (s : Int)
  | rem (i : Nat)
  | nxt
deriving Repr, DecidableEq

/-- Apply one public operation (the value-returning operations keep only the
state). -/
def applyOp (h : Heap) : HOp → Heap
  | .upd i s => h.update i s
  | .rem i => (h.remove i).1
  | .nxt => (h.next).1

/-- Apply a sequence of public operations. -/
def applyOps (h : Heap) (ops : List HOp) : Heap := ops.foldl applyOp h

/-- The caller contract for one operation: `update` identifiers must lie in
`[0, capacity)` (spec section 6); `remove` and `next` are total. -/
def OpOk (N : Nat) : HOp → Prop
  | .upd i _ => i < N
  | .rem _ => True
  | .nxt => True

/-- A heap state reachable from a contractual construction (distinct
identifiers inside `[0, capacity)`) by contractual public operations. -/
def Reachable (N : Nat) (h : Heap) : Prop :=
  ∃ (pairs : List (Nat × Int)) (ops : List HOp),
    (pairs.map Prod.fst).Nodup ∧ (∀ pr ∈ pairs, pr.1 < N) ∧
    (∀ op ∈ ops, OpOk N op) ∧
    h = applyOps (scoreHeapNew pairs N) ops

/-- The set of identifiers present in the heap, read off the side table. -/
def presentOf (h : Heap) (i : Nat) : Prop := 0 ≤ h.lookups.parIdOf i

/-- Well-formedness of one segment against the side table and the heap's
`partitionLength`. -/
structure WFPart (L : Lookups) (pl : Nat) (p : Part) : Prop where
  nonempty : p.indices ≠ []
  inrange : ∀ x ∈ p.members, 0 ≤ x ∧ x.toNat < L.score.length
  owned : ∀ x ∈ p.members, L.parIdOf x = p.id
  sorted_strict : p.isUniform = false → List.Pairwise (keyLt L) p.indices
  min_le_head : p.isUniform = false → ∀ x, p.indices.head? = some x →
    p.min ≤ L.scoreOf x
  unif_score : p.isUniform = true → ∀ x ∈ p.members, L.scoreOf x = p.min
  unif_slot : p.isUniform = true → ∀ j x, p.indices.get? j = some x → 0 ≤ x →
    L.slotOf x = (j : Int)
  unif_nodup : p.isUniform = true → p.members.Nodup
  cap_eq : p.isUniform = false → p.cap = pl
  len_le : p.isUniform = false → p.indices.length ≤ pl

/-- Well-formedness of a whole heap state: every segment is well-formed, the
segment ids are fresh and mapped to their positions, the side table's owning
field points back into the segment that holds the identifier, adjacent
segments respect the order invariant `S[i].max ≤ S[i+1].min`, and
`partitionLength` is a positive even constant. -/
structure WFHeap (h : Heap) : Prop where
  size2 : h.lookups.parId.length = h.lookups.score.length
  size3 : h.lookups.slot.length = h.lookups.score.length
  parts : ∀ p ∈ h.partitions, WFPart h.lookups h.partitionLength p
  ids_pos : ∀ p ∈ h.partitions, 0 ≤ p.id ∧ p.id < h.nextId
  pid_pos : ∀ i p, h.partitions.get? i = some p → pidGet h.partitionIds p.id = i
  backward : ∀ i : Nat, i < h.lookups.score.length → 0 ≤ h.lookups.parIdOf i →
    ∃ pos p, h.partitions.get? pos = some p ∧ p.id = h.lookups.parIdOf i ∧
      (i : Int) ∈ p.members
  order : ∀ i p q, h.partitions.get? i = some p →
    h.partitions.get? (i + 1) = some q →
    ∃ v, p.max h.lookups = some v ∧ v ≤ q.min
  pl_pos : 0 < h.partitionLength
  pl_even : h.partitionLength % 2 = 0

/-! ## Theorems -/

/-- Construction step of the `joinPartitions` scenario trace. -/
lemma c5chain0 : scoreHeapNew c5pairs 65 = c5state0 := by decide

/-- Splitting step of the `joinPartitions` scenario trace. -/
lemma c5chain1 : c5state0.update 64 1 = c5state1 := by decide

/-- Removal step 1 of the `joinPartitions` scenario trace. -/
lemma c5chain2 : (c5state1.remove 33).1 = c5state2 := by decide

/-- Removal step 2 of the `joinPartitions` scenario trace. -/
lemma c5chain3 : (c5state2.remove 34).1 = c5state3 := by decide

/-- Removal step 3 of the `joinPartitions` scenario trace. -/
lemma c5chain4 : (c5state3.remove 35).1 = c5state4 := by decide

/-- Removal step 4 of the `joinPartitions` scenario trace. -/
lemma c5chain5 : (c5state4.remove 36).1 = c5state5 := by decide

/-- Removal step 5 of the `joinPartitions` scenario trace. -/
lemma c5chain6 : (c5state5.remove 37).1 = c5state6 := by decide

/-- Removal step 6 of the `joinPartitions` scenario trace. -/
lemma c5chain7 : (c5state6.remove 38).1 = c5state7 := by decide

/-- Removal step 7 of the `joinPartitions` scenario trace. -/
lemma c5chain8 : (c5state7.remove 39).1 = c5state8 := by decide

/-- Removal step 8 of the `joinPartitions` scenario trace. -/
lemma c5chain9 : (c5state8.remove 40).1 = c5state9 := by decide

/-- Removal step 9 of the `joinPartitions` scenario trace. -/
lemma c5chain10 : (c5state9.remove 41).1 = c5state10 := by decide

/-- Removal step 10 of the `joinPartitions` scenario trace. -/
lemma c5chain11 : (c5state10.remove 42).1 = c5state11 := by decide

/-- Removal step 11 of the `joinPartitions` scenario trace. -/
lemma c5chain12 : (c5state11.remove 43).1 = c5state12 := by decide

/-- Removal step 12 of the `joinPartitions` scenario trace. -/
lemma c5chain13 : (c5state12.remove 44).1 = c5state13 := by decide

/-- Removal step 13 of the `joinPartitions` scenario trace. -/
lemma c5chain14 : (c5state13.remove 45).1 = c5state14 := by decide

/-- Removal step 14 of the `joinPartitions` scenario trace. -/
lemma c5chain15 : (c5state14.remove 46).1 = c5state15 := by decide

/-- Removal step 15 of the `joinPartitions` scenario trace. -/
lemma c5chain16 : (c5state15.remove 47).1 = c5state16 := by decide

/-- Final step of the `joinPartitions` scenario trace: the update removes the
sole member of segment id 1, the emptied segment is spliced out, and
`joinPartitions(0)` runs on the pair (id 0, id 2) — whose boundary scores are
equal — without merging anything. -/
lemma c5chain17 : c5state16.update 32 2 = c5state17 := by decide

/-- The scenario's middle state evaluates to its literal. -/
lemma c5mid_eq : c5mid = c5state16 := by
  unfold c5mid
  rw [c5chain0, c5chain1, c5chain2, c5chain3, c5chain4, c5chain5, c5chain6, c5chain7, c5chain8, c5chain9, c5chain10, c5chain11, c5chain12, c5chain13, c5chain14, c5chain15, c5chain16]

/-- The scenario's final state evaluates to its literal. -/
lemma c5fin_eq : c5fin = c5state17 := by
  unfold c5fin
  rw [c5mid_eq, c5chain17]

/-- Claim C4 counterexample: the Scenario A heap (capacity 4, four pairs all
at score 5) has exactly one segment, and that segment is *not* uniform — the
constructor only promotes a chunk to a uniform segment when the chunk is a
full `partitionLength` (= 32 here) entries of one score, which four entries
never reach.  This contradicts the claim's "that segment is uniform". -/
theorem scenarioA_segment_not_uniform :
    scenarioA.partitions.map Part.isUniform = [false] := by decide

/-- Claim C4 (amended): constructing a heap with capacity 4 from the pairs
`[(0,5),(1,5),(2,5),(3,5)]` produces exactly one segment, which is a sorted
(non-uniform) segment; `next()` returns identifier 3, and after `remove(3)`,
`next()` returns 2. -/
theorem scenarioA_single_sorted_segment :
    scenarioA.partitions.map Part.isUniform = [false] ∧
    (scenarioA.next).2 = some 3 ∧
    (((scenarioA.remove 3).1).next).2 = some 2 := by decide

/-- Claim C10: constructing a heap from an empty pair list with any capacity
succeeds with zero segments; on that heap `next()` returns absent and
`remove` returns absent for every identifier, both leaving the heap exactly
as it was. -/
theorem empty_construction_empty_heap :
    ∀ (capacity idx : Nat),
      (scoreHeapNew [] capacity).partitions = [] ∧
      (scoreHeapNew [] capacity).next = (scoreHeapNew [] capacity, none) ∧
      (scoreHeapNew [] capacity).remove idx = (scoreHeapNew [] capacity, none) := by
  intro _ _
  exact ⟨rfl, rfl, rfl⟩

/-- Claim C1 counterexample: on the heap of 32 identifiers all at score 5
(one uniform segment), after `remove(5)` then `update(5, 5)`, `next()`
returns identifier 5 — but identifier 31 is also present (owned by segment 0)
with the same, maximal score 5, and `5 < 31`.  The claimed tie-break "the
larger identifier value" is therefore violated: a uniform segment answers
with the live identifier in its highest slot (here the re-appended 5), not
with the largest tied identifier. -/
theorem next_tie_break_counterexample :
    (uniformReinserted.next).2 = some 5 ∧
    uniformReinserted.lookups.parIdOf 31 = 0 ∧
    uniformReinserted.lookups.score = List.replicate 32 5 ∧
    (5 : Nat) < 31 := by decide

/-- Claim C5 counterexample: in the scenario trace, `update(32, 2)` removes
the sole member of segment id 1, emptying it, and `joinPartitions` runs on
the newly adjacent pair (id 0, max score 1) and (id 2, min score 1): the
pair's boundary scores are equal and neither side is uniform, so the claim
demands that the pair be merged into a brand-new uniform segment.  The code
instead compares `partition1.min`(= 0) with `partition2.max`(= 2), finds them
different, and — the combined length 49 exceeding `partitionLength` 32 —
merges nothing: the final heap still has both segments, sorted, and no new
segment id was allocated. -/
theorem joinPartitions_boundary_counterexample :
    c5mid.partitions.map (fun p => (p.isUniform, p.id)) =
      [(false, 0), (false, 1), (false, 2)] ∧
    (c5mid.partitions.getD 1 (Part.u 0 [] 0)).indices = [(32 : Int)] ∧
    ((c5mid.partitions.getD 0 (Part.u 0 [] 0)).max c5mid.lookups) = some 1 ∧
    (c5mid.partitions.getD 2 (Part.u 0 [] 0)).min = 1 ∧
    c5fin.partitions.map (fun p => (p.isUniform, p.id)) = [(false, 0), (false, 2)] ∧
    c5fin.nextId = 3 := by
  rw [c5mid_eq, c5fin_eq]
  decide


/-- Helper: the head surviving `dropWhile` is the first element on which the
predicate fails. -/
lemma head?_dropWhile_eq_find?_not (p : Int → Bool) (l : List Int) :
    (l.dropWhile p).head? = l.find? (fun x => !(p x)) := by
  induction l with
  | nil => rfl
  | cons x xs ih =>
    by_cases hx : p x
    · simp [List.dropWhile_cons, List.find?_cons, hx, ih]
    · simp [List.dropWhile_cons, List.find?_cons, hx]

/-- Claim C9: on any uniform segment state, `next()` answers with the live
(non-tombstoned) identifier occupying the highest slot of the backing array —
the first non-negative entry of the reversed slot list — and this is not in
general the largest identifier value in the segment, as the slot assignment
`[3, 7, 5]` shows: `next()` answers 5 although 7 is a member. -/
theorem uniform_next_highest_live_slot :
    (∀ (id : Int) (idx : List Int) (mn : Int),
      (partNextD (Part.u id idx mn)).2 = idx.reverse.find? (fun v => decide (0 ≤ v))) ∧
    ((partNextD (Part.u 0 [3, 7, 5] 5)).2 = some 5 ∧ (5 : Int) < 7) := by
  constructor
  · intro id idx mn
    change ((List.dropWhile (fun v => decide (v < 0)) idx.reverse).reverse).getLast? = _
    rw [List.getLast?_reverse, head?_dropWhile_eq_find?_not]
    congr 1
    funext v
    rw [← decide_not]
    simp [Int.not_le]
  · exact ⟨by decide, by decide⟩

/-- Claim C8: removing an identifier whose owning-segment field is negative
(including any out-of-range identifier, whose side-table read fails the
`>= 0` test just the same) returns absent and leaves the heap record
untouched — hence a second removal does exactly the same; and when the
owning-segment field is non-negative and the heap has segments (with the
id-to-position entry naming an existing position, as it always does in a
heap built by the public operations), `remove` returns the identifier. -/
theorem remove_absent_noop :
    ∀ (h : Heap) (idx : Nat),
      (h.lookups.parIdOf idx < 0 →
        h.remove idx = (h, none) ∧ (h.remove idx).1.remove idx = (h, none)) ∧
      (0 ≤ h.lookups.parIdOf idx → h.partitions ≠ [] →
        (h.remove idx).2 = some idx) := by
  intro h idx
  constructor
  · intro hneg
    have habs : h.remove idx = (h, none) := by
      unfold Heap.remove
      split
      · rfl
      · simp only [if_neg (by omega : ¬(0 : Int) ≤ h.lookups.parIdOf idx)]
    exact ⟨habs, by rw [habs]; exact habs⟩
  · intro hpos hne
    unfold Heap.remove
    rw [if_neg (by simpa [List.isEmpty_iff] using hne)]
    simp only [if_pos hpos]
    rcases hget : h.partitions.get? (pidGet h.partitionIds (h.lookups.parIdOf idx)) with _ | p
    · simp [hget]
    · simp only [hget]
      split <;> rfl

/-- Witness for `remove_absent_noop` at concrete inputs: identifier 7 is out
of range for the Scenario A heap (capacity 4) and absent, identifier 0 is
present. -/
theorem remove_absent_noop_witness :
    (scenarioA.remove 7 = (scenarioA, none)) ∧ ((scenarioA.remove 0).2 = some 0) := by
  have t7 := remove_absent_noop scenarioA 7
  have t0 := remove_absent_noop scenarioA 0
  exact ⟨(t7.1 (by decide)).1, t0.2 (by decide) (by decide)⟩

/-- Helper: the exit computation lands on the final `lo` of an exited loop
whose window invariants hold. -/
lemma sbExit_characterization (n : Nat) (fn : Nat → Int) (lo : Nat) (hi : Int)
    (last : Option (Nat × Int))
    (hhi : hi < (n : Int)) (hlo : (lo : Int) ≤ hi + 1)
    (h1 : ∀ i : Nat, i < lo → 0 < fn i)
    (h2 : ∀ i : Nat, hi < (i : Int) → i < n → fn i < 0)
    (hlh : ¬ (lo : Int) ≤ hi)
    (hnone : last = none → (lo : Int) ≤ hi)
    (hlast : ∀ cur r, last = some (cur, r) → r = fn cur ∧
      ((0 < r ∧ lo = cur + 1) ∨ (r < 0 ∧ hi = (cur : Int) - 1 ∧ lo ≤ cur))) :
    ∃ m, sbExit last = some m ∧ m ≤ n ∧
      ((∀ i, i < m → 0 < fn i) ∧ (∀ i, m ≤ i → i < n → fn i < 0)) := by
  match last with
  | none => exact absurd (hnone rfl) hlh
  | some (cur, r) =>
    obtain ⟨hr, hcase⟩ := hlast cur r rfl
    rcases hcase with ⟨hrpos, hloeq⟩ | ⟨hrneg, hhieq, hlole⟩
    · refine ⟨cur + 1, by simp [sbExit, hrpos], by omega,
        fun i hi' => h1 i (by omega), ?_⟩
      intro i hge hin
      exact h2 i (by omega) hin
    · refine ⟨cur, by simp [sbExit, if_neg (by omega : ¬ (0:Int) < r)], by omega,
        fun i hi' => h1 i (by omega), ?_⟩
      intro i hge hin
      exact h2 i (by omega) hin

/-- Helper: full characterization of the `searchBinary` loop.  The invariants
are: the remaining window `[lo, hi]` fits in the fuel, everything left of
`lo` answered positive, everything right of `hi` (below `n`) answers
negative, and the carried `currentIndex, result` pair describes the most
recent probe. -/
lemma sbLoop_characterization (n : Nat) (fn : Nat → Int) (hs : SignSorted n fn) :
    ∀ (fuel lo : Nat) (hi : Int) (last : Option (Nat × Int)),
    ((hi + 1 - lo).toNat ≤ fuel) → (hi < (n : Int)) → ((lo : Int) ≤ hi + 1) →
    (∀ i : Nat, i < lo → 0 < fn i) →
    (∀ i : Nat, hi < (i : Int) → i < n → fn i < 0) →
    (last = none → (lo : Int) ≤ hi) →
    (∀ cur r, last = some (cur, r) → r = fn cur ∧
      ((0 < r ∧ lo = cur + 1) ∨ (r < 0 ∧ hi = (cur : Int) - 1 ∧ lo ≤ cur))) →
    ∃ m, sbLoop fn fuel lo hi last = some m ∧ m ≤ n ∧
      ((m < n ∧ fn m = 0) ∨
        ((∀ i, i < m → 0 < fn i) ∧ (∀ i, m ≤ i → i < n → fn i < 0))) := by
  intro fuel
  induction fuel with
  | zero =>
    intro lo hi last hfuel hhi hlo h1 h2 hnone hlast
    by_cases hlh : (lo : Int) ≤ hi
    · omega
    · obtain ⟨m, hm, hmn, hprop⟩ :=
        sbExit_characterization n fn lo hi last hhi hlo h1 h2 hlh hnone hlast
      exact ⟨m, by rw [sbLoop, if_neg hlh]; exact hm, hmn, Or.inr hprop⟩
  | succ fuel ih =>
    intro lo hi last hfuel hhi hlo h1 h2 hnone hlast
    by_cases hlh : (lo : Int) ≤ hi
    · have hln : lo ≤ hi.toNat := by omega
      have hcur1 : lo ≤ (lo + hi.toNat) / 2 :=
        (Nat.le_div_iff_mul_le (by omega)).mpr (by omega)
      have hcur2 : (lo + hi.toNat) / 2 ≤ hi.toNat :=
        Nat.div_le_of_le_mul (by omega)
      set cur := (lo + hi.toNat) / 2 with hcurdef
      have hcurn : cur < n := by omega
      have hstep : sbLoop fn (fuel + 1) lo hi last =
          (if 0 < fn cur then sbLoop fn fuel (cur + 1) hi (some (cur, fn cur))
           else if fn cur < 0 then sbLoop fn fuel lo ((cur : Int) - 1) (some (cur, fn cur))
           else some cur) := by
        rw [sbLoop, if_pos hlh]
      rcases lt_trichotomy 0 (fn cur) with hpos | hzero | hneg
      · rw [hstep, if_pos hpos]
        refine ih (cur + 1) hi (some (cur, fn cur)) (by omega) hhi (by omega) ?_ h2
          (by intro he; exact absurd he (by simp)) ?_
        · intro i hic
          rcases Nat.lt_or_ge i cur with hic' | hic'
          · exact (hs i cur hic' hcurn).1 hpos
          · have hieq : i = cur := by omega
            exact hieq ▸ hpos
        · intro c r he
          injection he with he'
          obtain ⟨h1', h2'⟩ := Prod.mk.inj he'
          subst h1' h2'
          exact ⟨rfl, Or.inl ⟨hpos, rfl⟩⟩
      · rw [hstep, if_neg (by omega), if_neg (by omega)]
        exact ⟨cur, rfl, by omega, Or.inl ⟨hcurn, hzero.symm⟩⟩
      · rw [hstep, if_neg (by omega), if_pos hneg]
        refine ih lo ((cur : Int) - 1) (some (cur, fn cur)) (by omega) (by omega)
          (by omega) h1 ?_ (by intro he; exact absurd he (by simp)) ?_
        · intro i hig hin
          rcases Nat.lt_or_ge cur i with hic' | hic'
          · exact (hs cur i hic' hin).2 hneg
          · have hieq : i = cur := by omega
            exact hieq ▸ hneg
        · intro c r he
          injection he with he'
          obtain ⟨h1', h2'⟩ := Prod.mk.inj he'
          subst h1' h2'
          exact ⟨rfl, Or.inr ⟨hneg, rfl, hcur1⟩⟩
    · obtain ⟨m, hm, hmn, hprop⟩ :=
        sbExit_characterization n fn lo hi last hhi hlo h1 h2 hlh hnone hlast
      exact ⟨m, by rw [sbLoop, if_neg hlh]; exact hm, hmn, Or.inr hprop⟩

/-- Claim C6 counterexample: for length 1 and the constant comparator 1
(trivially a sorted comparator: the probe exceeds the single element),
`searchBinary` returns position 1 — it is not clamped into `[0, n-1] = {0}`,
and it is not "the first position whose comparator value is ≥ 0", which would
be 0. -/
theorem searchBinary_unclamped_counterexample :
    searchBinary 1 (fun _ => (1 : Int)) = some 1 ∧ ¬ (1 ≤ (0 : Nat)) := by decide

/-- Claim C6 (amended): for a positive length and a sign-monotone three-way
comparator (positive answers, then at most a zero plateau, then negative
answers, as produced by probing a sorted sequence), `searchBinary` returns an
exact match position when the comparator is zero somewhere; otherwise it
returns the insertion point — the first position whose comparator value is
negative (equivalently `≤ 0`), which is `n` itself when every position
answers positive (the result is *not* clamped into `[0, n-1]`), with the code
moving right on positive answers (not the claim's "first position `≥ 0`"
convention). -/
theorem searchBinary_insertion_point (n : Nat) (fn : Nat → Int) (hn : 0 < n)
    (hs : SignSorted n fn) :
    ∃ m, searchBinary n fn = some m ∧ m ≤ n ∧
      ((m < n ∧ fn m = 0) ∨
        ((∀ i, i < n → fn i ≠ 0) ∧ (∀ i, i < m → 0 < fn i) ∧
          (∀ i, m ≤ i → i < n → fn i < 0))) := by
  obtain ⟨m, hm, hmn, hprop⟩ :=
    sbLoop_characterization n fn hs n 0 ((n : Int) - 1) none
      (by omega) (by omega) (by omega)
      (by omega) (by intro i h1 h2; omega) (by intro _; omega)
      (by intro c r h; exact absurd h (by simp))
  refine ⟨m, hm, hmn, ?_⟩
  rcases hprop with hzero | ⟨hl, hr⟩
  · exact Or.inl hzero
  · refine Or.inr ⟨?_, hl, hr⟩
    intro i hin
    rcases Nat.lt_or_ge i m with hi' | hi'
    · exact ne_of_gt (hl i hi')
    · exact ne_of_lt (hr i hi' hin)

/-- Witness for `searchBinary_insertion_point` at the concrete comparator
`fun i => 1 - i` over 3 positions (answers `1, 0, -1`): the hypotheses hold
and the search finds the zero at position 1. -/
theorem searchBinary_insertion_point_witness :
    ∃ m, searchBinary 3 (fun i => 1 - (i : Int)) = some m ∧ m ≤ 3 ∧
      ((m < 3 ∧ 1 - (m : Int) = 0) ∨
        ((∀ i : Nat, i < 3 → 1 - (i : Int) ≠ 0) ∧
          (∀ i : Nat, i < m → 0 < 1 - (i : Int)) ∧
          (∀ i : Nat, m ≤ i → i < 3 → 1 - (i : Int) < 0))) :=
  searchBinary_insertion_point 3 (fun i => 1 - (i : Int)) (by omega)
    (by intro i j hij hjn; constructor <;> intro h <;> simp only at h ⊢ <;> omega)

/-- Helper: once `A` is exhausted, the interleave loop copies the rest of
`B`. -/
lemma ilvGo_left_exhausted (a b : List Int) (fn : Nat → Nat → Int) :
    ∀ (fuel k : Nat), b.length - k ≤ fuel →
      ilvGo a b fn fuel a.length k = b.drop k := by
  intro fuel
  induction fuel with
  | zero =>
    intro k hk
    rw [ilvGo, List.drop_eq_nil_of_le (by omega)]
  | succ fuel ih =>
    intro k hk
    rw [ilvGo]
    by_cases hkb : k < b.length
    · rw [if_pos ⟨hkb, Or.inl rfl⟩, ih (k + 1) (by omega),
        List.drop_eq_getElem_cons hkb, List.getD_eq_getElem b 0 hkb]
    · rw [if_neg (by simp [hkb]), if_neg (by omega), List.drop_eq_nil_of_le (by omega)]

/-- Helper: once `B` is exhausted, the interleave loop copies the rest of
`A`. -/
lemma ilvGo_right_exhausted (a b : List Int) (fn : Nat → Nat → Int) :
    ∀ (fuel j : Nat), a.length - j ≤ fuel →
      ilvGo a b fn fuel j b.length = a.drop j := by
  intro fuel
  induction fuel with
  | zero =>
    intro j hj
    rw [ilvGo, List.drop_eq_nil_of_le (by omega)]
  | succ fuel ih =>
    intro j hj
    rw [ilvGo, if_neg (by omega)]
    by_cases hja : j < a.length
    · rw [if_pos hja, ih (j + 1) (by omega),
        List.drop_eq_getElem_cons hja, List.getD_eq_getElem a 0 hja]
    · rw [if_neg hja, List.drop_eq_nil_of_le (by omega)]

/-- Helper: the interleave loop agrees with the reference merge. -/
lemma ilvGo_eq_mergeRefGo (a b : List Int) (fn : Nat → Nat → Int) :
    ∀ (fuel j k : Nat), j ≤ a.length → k ≤ b.length →
      (a.length - j) + (b.length - k) ≤ fuel →
      ilvGo a b fn fuel j k = mergeRefGo a b fn fuel j k := by
  intro fuel
  induction fuel with
  | zero =>
    intro j k hj hk hf
    rw [ilvGo, mergeRefGo]
  | succ fuel ih =>
    intro j k hj hk hf
    by_cases hja : j = a.length
    · subst hja
      rw [mergeRefGo, if_pos rfl, ilvGo_left_exhausted a b fn _ k (by omega)]
    · have hja' : j < a.length := by omega
      by_cases hkb : k = b.length
      · subst hkb
        rw [mergeRefGo, if_neg hja, if_pos rfl,
          ilvGo_right_exhausted a b fn _ j (by omega)]
      · have hkb' : k < b.length := by omega
        by_cases hfn : fn j k < 0
        · rw [ilvGo, if_pos ⟨hkb', Or.inr hfn⟩, mergeRefGo, if_neg hja,
            if_neg hkb, if_pos hfn, ih j (k + 1) hj (by omega) (by omega)]
        · rw [ilvGo, if_neg (by simp [hfn, hja]), if_pos hja', mergeRefGo,
            if_neg hja, if_neg hkb, if_neg hfn, ih (j + 1) k (by omega) hk (by omega)]

/-- Helper: the interleave loop emits a permutation of the remaining
elements. -/
lemma ilvGo_perm (a b : List Int) (fn : Nat → Nat → Int) :
    ∀ (fuel j k : Nat), j ≤ a.length → k ≤ b.length →
      (a.length - j) + (b.length - k) ≤ fuel →
      (ilvGo a b fn fuel j k).Perm (a.drop j ++ b.drop k) := by
  intro fuel
  induction fuel with
  | zero =>
    intro j k hj hk hf
    rw [ilvGo, List.drop_eq_nil_of_le (by omega : a.length ≤ j),
      List.drop_eq_nil_of_le (by omega : b.length ≤ k)]
    rfl
  | succ fuel ih =>
    intro j k hj hk hf
    rw [ilvGo]
    by_cases hcond : k < b.length ∧ (j = a.length ∨ fn j k < 0)
    · rw [if_pos hcond]
      have hkb := hcond.1
      have hperm := ih j (k + 1) hj (by omega) (by omega)
      refine List.Perm.trans (hperm.cons (b.getD k 0)) ?_
      have hdk : a.drop j ++ b.drop k = a.drop j ++ (b.getD k 0 :: b.drop (k + 1)) := by
        rw [List.drop_eq_getElem_cons hkb, List.getD_eq_getElem b 0 hkb]
      rw [hdk]
      exact List.perm_middle.symm
    · rw [if_neg hcond]
      by_cases hja : j < a.length
      · rw [if_pos hja]
        have hperm := ih (j + 1) k (by omega) hk (by omega)
        have : a.drop j = a.getD j 0 :: a.drop (j + 1) := by
          rw [List.drop_eq_getElem_cons hja, List.getD_eq_getElem a 0 hja]
        rw [this]
        exact hperm.cons _
      · rw [if_neg hja]
        have hja' : j = a.length := by omega
        have hkb' : k = b.length := by
          by_contra hne
          exact hcond ⟨by omega, Or.inl hja'⟩
        rw [hja', hkb', List.drop_length, List.drop_length]
        rfl

/-- Helper: membership in a drop names an index at or past the start. -/
lemma mem_drop_index (l : List Int) (j : Nat) (x : Int) (hx : x ∈ l.drop j) :
    ∃ i, j ≤ i ∧ i < l.length ∧ l.getD i 0 = x := by
  obtain ⟨i, hi, hget⟩ := List.mem_iff_getElem.mp hx
  rw [List.getElem_drop] at hget
  have hlen := hi
  rw [List.length_drop] at hlen
  exact ⟨j + i, by omega, by omega, by
    rw [List.getD_eq_getElem l 0 (by omega)]
    exact hget⟩

/-- Helper: elements emitted by the reference merge come from the remaining
input regions. -/
lemma mergeRefGo_mem (a b : List Int) (fn : Nat → Nat → Int)
    (fuel j k : Nat) (hj : j ≤ a.length) (hk : k ≤ b.length)
    (hf : (a.length - j) + (b.length - k) ≤ fuel) (x : Int)
    (hx : x ∈ mergeRefGo a b fn fuel j k) : x ∈ a.drop j ++ b.drop k := by
  rw [← ilvGo_eq_mergeRefGo a b fn fuel j k hj hk hf] at hx
  exact (ilvGo_perm a b fn fuel j k hj hk hf).mem_iff.mp hx

/-- Helper: the key image of a suffix of an index-ascending list is sorted. -/
lemma sorted_map_drop {K : Type} [LinearOrder K] (l : List Int) (key : Int → K)
    (hl : ∀ i i' : Nat, i ≤ i' → i' < l.length → key (l.getD i 0) ≤ key (l.getD i' 0))
    (k : Nat) : ((l.drop k).map key).Sorted (· ≤ ·) := by
  rw [List.Sorted, List.pairwise_iff_getElem]
  intro i j hi hj hij
  simp only [List.getElem_map, List.getElem_drop] at *
  rw [List.length_map, List.length_drop] at hi hj
  rw [← List.getD_eq_getElem l 0 (by omega), ← List.getD_eq_getElem l 0 (by omega)]
  exact hl (k + i) (k + j) (by omega) (by omega)

/-- Helper: the reference merge of two ascending sequences is ascending when
the comparator answers negative exactly when the current `B` element's key is
below the current `A` element's key. -/
lemma mergeRefGo_sorted {K : Type} [LinearOrder K] (a b : List Int)
    (fn : Nat → Nat → Int) (key : Int → K)
    (ha : ∀ i i' : Nat, i ≤ i' → i' < a.length → key (a.getD i 0) ≤ key (a.getD i' 0))
    (hb : ∀ i i' : Nat, i ≤ i' → i' < b.length → key (b.getD i 0) ≤ key (b.getD i' 0))
    (hfn : ∀ j k : Nat, j < a.length → k < b.length →
      (fn j k < 0 ↔ key (b.getD k 0) < key (a.getD j 0))) :
    ∀ (fuel j k : Nat), j ≤ a.length → k ≤ b.length →
      (a.length - j) + (b.length - k) ≤ fuel →
      ((mergeRefGo a b fn fuel j k).map key).Sorted (· ≤ ·) := by
  intro fuel
  induction fuel with
  | zero =>
    intro j k hj hk hf
    rw [mergeRefGo]
    exact List.sorted_nil
  | succ fuel ih =>
    intro j k hj hk hf
    rw [mergeRefGo]
    by_cases hja : j = a.length
    · rw [if_pos hja]
      exact sorted_map_drop b key hb k
    · rw [if_neg hja]
      have hja' : j < a.length := by omega
      by_cases hkb : k = b.length
      · rw [if_pos hkb]
        exact sorted_map_drop a key ha j
      · rw [if_neg hkb]
        have hkb' : k < b.length := by omega
        by_cases hfn' : fn j k < 0
        · rw [if_pos hfn']
          rw [List.map_cons, List.sorted_cons]
          refine ⟨?_, ih j (k + 1) hj (by omega) (by omega)⟩
          intro y hy
          obtain ⟨x, hxmem, hxy⟩ := List.mem_map.mp hy
          subst hxy
          have hx := mergeRefGo_mem a b fn fuel j (k + 1) hj (by omega) (by omega) x hxmem
          rcases List.mem_append.mp hx with hxa | hxb
          · obtain ⟨i, hji, hin, hieq⟩ := mem_drop_index a j x hxa
            have h1 : key (b.getD k 0) < key (a.getD j 0) := (hfn j k hja' hkb').mp hfn'
            have h2 : key (a.getD j 0) ≤ key (a.getD i 0) := ha j i hji hin
            rw [← hieq]
            exact le_of_lt (lt_of_lt_of_le h1 h2)
          · obtain ⟨i, hki, hin, hieq⟩ := mem_drop_index b (k + 1) x hxb
            rw [← hieq]
            exact hb k i (by omega) hin
        · rw [if_neg hfn']
          rw [List.map_cons, List.sorted_cons]
          refine ⟨?_, ih (j + 1) k (by omega) hk (by omega)⟩
          intro y hy
          obtain ⟨x, hxmem, hxy⟩ := List.mem_map.mp hy
          subst hxy
          have hx := mergeRefGo_mem a b fn fuel (j + 1) k (by omega) hk (by omega) x hxmem
          rcases List.mem_append.mp hx with hxa | hxb
          · obtain ⟨i, hji, hin, hieq⟩ := mem_drop_index a (j + 1) x hxa
            rw [← hieq]
            exact ha j i (by omega) hin
          · obtain ⟨i, hki, hin, hieq⟩ := mem_drop_index b k x hxb
            have h1 : key (a.getD j 0) ≤ key (b.getD k 0) :=
              le_of_not_lt (fun hlt => hfn' ((hfn j k hja' hkb').mpr hlt))
            have h2 : key (b.getD k 0) ≤ key (b.getD i 0) := hb k i hki hin
            rw [← hieq]
            exact le_trans h1 h2

/-- Claim C7 counterexample: merging `A = [10]` with `B = [20]` under a
comparator that compares them equal places the element of `A` first — the
loop only takes from `B` on a strictly negative comparison — contradicting
the claim's "the element of B is placed before the element of A". -/
theorem interleave_tie_order_counterexample :
    interleaveArrays [10] [20] (fun _ _ => 0) = [10, 20] ∧
    ((10 : Int), (20 : Int)) ≠ (20, 10) := by decide

/-- Claim C7 (amended): `interleaveArrays` fills the destination with the
stable merge that takes an element of `B` exactly when the comparator is
negative and otherwise takes the element of `A` — so when the comparator
answers zero (equal), the element of `A` is placed before the element of `B`;
the output is a permutation of the two inputs, and whenever both inputs are
key-ascending and the comparator answers negative exactly when the pending
`B` element's key is smaller, the output is key-ascending. -/
theorem interleaveArrays_stable_merge (a b : List Int) (fn : Nat → Nat → Int) :
    interleaveArrays a b fn = mergeRef a b fn ∧
    (interleaveArrays a b fn).Perm (a ++ b) ∧
    (∀ {K : Type} [LinearOrder K] (key : Int → K),
      (∀ i i' : Nat, i ≤ i' → i' < a.length → key (a.getD i 0) ≤ key (a.getD i' 0)) →
      (∀ i i' : Nat, i ≤ i' → i' < b.length → key (b.getD i 0) ≤ key (b.getD i' 0)) →
      (∀ j k : Nat, j < a.length → k < b.length →
        (fn j k < 0 ↔ key (b.getD k 0) < key (a.getD j 0))) →
      ((interleaveArrays a b fn).map key).Sorted (· ≤ ·)) := by
  refine ⟨ilvGo_eq_mergeRefGo a b fn (a.length + b.length) 0 0 (by omega) (by omega)
      (by omega), ?_, ?_⟩
  · have h := ilvGo_perm a b fn (a.length + b.length) 0 0 (by omega) (by omega) (by omega)
    simpa using h
  · intro K _ key ha hb hfn
    rw [show interleaveArrays a b fn = mergeRefGo a b fn (a.length + b.length) 0 0 from
      ilvGo_eq_mergeRefGo a b fn (a.length + b.length) 0 0 (by omega) (by omega) (by omega)]
    exact mergeRefGo_sorted a b fn key ha hb hfn (a.length + b.length) 0 0
      (by omega) (by omega) (by omega)

/-- Witness for `interleaveArrays_stable_merge` at `A = [1, 4]`, `B = [2, 4]`
with the subtraction comparator and the identity key: the hypotheses hold
concretely and all three conclusions follow. -/
theorem interleaveArrays_stable_merge_witness :
    interleaveArrays [1, 4] [2, 4]
        (fun j k => ([2, 4].getD k 0) - ([1, 4].getD j 0)) =
      mergeRef [1, 4] [2, 4] (fun j k => ([2, 4].getD k 0) - ([1, 4].getD j 0)) ∧
    (interleaveArrays [1, 4] [2, 4]
        (fun j k => ([2, 4].getD k 0) - ([1, 4].getD j 0))).Perm ([1, 4] ++ [2, 4]) ∧
    ((interleaveArrays [1, 4] [2, 4]
        (fun j k => ([2, 4].getD k 0) - ([1, 4].getD j 0))).map (fun x => x)).Sorted
      (· ≤ ·) := by
  obtain ⟨h1, h2, h3⟩ := interleaveArrays_stable_merge [1, 4] [2, 4]
    (fun j k => ([2, 4].getD k 0) - ([1, 4].getD j 0))
  refine ⟨h1, h2, h3 (fun x => x) ?_ ?_ ?_⟩
  · intro i i' hle hlt
    simp only [List.length_cons, List.length_nil] at hlt
    interval_cases i' <;> interval_cases i <;> simp
  · intro i i' hle hlt
    simp only [List.length_cons, List.length_nil] at hlt
    interval_cases i' <;> interval_cases i <;> simp
  · intro j k hj hk
    simp only [List.length_cons, List.length_nil] at hj hk
    interval_cases j <;> interval_cases k <;> simp

/-- Helper: replacing position `i` and erasing position `i + 1` collapses an
adjacent pair into a single element. -/
lemma set_eraseIdx_pair (ps : List Part) :
    ∀ (i : Nat) (q : Part), i + 1 < ps.length →
      (ps.set i q).eraseIdx (i + 1) = ps.take i ++ q :: ps.drop (i + 2) := by
  induction ps with
  | nil => intro i q hlt; simp at hlt
  | cons x xs ih =>
    intro i q hlt
    cases i with
    | zero =>
      cases xs with
      | nil => simp at hlt
      | cons y ys => simp [List.set, List.eraseIdx]
    | succ i =>
      simp only [List.set, List.eraseIdx, List.take, List.drop]
      rw [ih i q (by simpa using hlt)]
      rfl

/-- Helper: replacing position `i + 1` and erasing position `i` also collapses
the adjacent pair into the replacement. -/
lemma set_eraseIdx_pair' (ps : List Part) :
    ∀ (i : Nat) (q : Part), i + 1 < ps.length →
      (ps.set (i + 1) q).eraseIdx i = ps.take i ++ q :: ps.drop (i + 2) := by
  induction ps with
  | nil => intro i q hlt; simp at hlt
  | cons x xs ih =>
    intro i q hlt
    cases i with
    | zero =>
      cases xs with
      | nil => simp at hlt
      | cons y ys => simp [List.set, List.eraseIdx]
    | succ i =>
      simp only [List.set, List.eraseIdx, List.take, List.drop]
      rw [ih i q (by simpa using hlt)]
      rfl

/-- Claim C5 (amended): when `joinPartitions` runs on an adjacent pair, the
deciding test is `partition1.min == partition2.max` — the pair spans one
single score — not the pair's *boundary* scores (`partition1.max` vs
`partition2.min`).  When it holds, the pair is replaced in place by one
uniform segment holding both segments' slots: the uniform side absorbs
(preferring the lower segment, whose id survives), and a brand-new uniform
segment (with a fresh id) is created when neither side is uniform.  When it
fails, the pair is merged — directly, into a sorted segment under the lower
segment's id — exactly when both sides are sorted and the combined length
fits `partitionLength` (and the lower backing capacity, always equal to
`partitionLength` in heaps built by the public operations); if either side is
uniform or the combined length overflows, nothing at all is merged. -/
theorem joinPartitions_characterization (h : Heap) (i : Nat) (p1 p2 : Part)
    (h1 : h.partitions.get? i = some p1) (h2 : h.partitions.get? (i + 1) = some p2) :
    (p2.max h.lookups = some p1.min →
      ∃ q, (h.joinPartitionsF (i : Int)).partitions =
          h.partitions.take i ++ q :: h.partitions.drop (i + 2) ∧
        q.isUniform = true ∧
        q.indices.Perm (p1.indices ++ p2.indices) ∧
        q.id = (if p1.isUniform then p1.id
                else if p2.isUniform then p2.id else h.nextId)) ∧
    (p2.max h.lookups ≠ some p1.min →
      ((¬p1.isUniform ∧ ¬p2.isUniform ∧ p1.length + p2.length ≤ h.partitionLength ∧
          p2.length + p1.length ≤ p1.cap) →
        ∃ q, (h.joinPartitionsF (i : Int)).partitions =
            h.partitions.take i ++ q :: h.partitions.drop (i + 2) ∧
          q.isUniform = false ∧
          q.indices.Perm (p1.indices ++ p2.indices) ∧ q.id = p1.id) ∧
      ((p1.isUniform ∨ p2.isUniform ∨ h.partitionLength < p1.length + p2.length) →
        h.joinPartitionsF (i : Int) = h)) := by
  have hlen : i + 1 < h.partitions.length := (List.get?_eq_some.mp h2).1
  have hguard : (0 : Int) ≤ (i : Int) ∧ (i : Int) < (h.partitions.length : Int) - 1 := by
    constructor <;> omega
  have htn : ((i : Int)).toNat = i := Int.toNat_natCast i
  rcases p1 with ⟨id1, idx1, cap1, mn1⟩ | ⟨id1, idx1, mn1⟩ <;>
    rcases p2 with ⟨id2, idx2, cap2, mn2⟩ | ⟨id2, idx2, mn2⟩
  · -- sorted, sorted
    constructor
    · intro hmax
      refine ⟨(unifNew h.lookups h.nextId (idx1 ++ idx2)).2, ?_, ?_, ?_, ?_⟩
      · simp only [Heap.joinPartitionsF, if_pos hguard, htn, h1, h2, if_pos hmax,
          Part.isUniform, Bool.false_eq_true, if_false, Part.indices, Heap.reindex]
        exact set_eraseIdx_pair h.partitions i _ hlen
      · rfl
      · simp [unifNew, Part.indices]
      · simp [unifNew, Part.isUniform, Part.id]
    · intro hne
      constructor
      · rintro ⟨-, -, hfit, hcap⟩
        simp only [Part.length, Part.cap] at hfit hcap
        set Lj := idx2.foldl (fun acc i => (acc.setParId i id1).setSlot i (-1))
          h.lookups with hLj
        set cmp : Nat → Nat → Int := fun a b =>
          orInt (Lj.scoreOf (idx2.getD b 0) - Lj.scoreOf (idx1.getD a 0))
            (idx2.getD b 0 - idx1.getD a 0) with hcmp
        have hpj : partJoin h.lookups id1 idx1 cap1 mn1 idx2 =
            some (Lj, Part.s id1 (interleaveArrays idx1 idx2 cmp) cap1 mn1) := by
          unfold partJoin
          rw [if_pos hcap]
        refine ⟨Part.s id1 (interleaveArrays idx1 idx2 cmp) cap1 mn1, ?_, rfl, ?_, rfl⟩
        · simp only [Heap.joinPartitionsF, if_pos hguard, htn, h1, h2, if_neg hne,
            Part.isUniform, Bool.false_eq_true, not_false_eq_true, Part.length,
            true_and, Heap.reindex]
          rw [if_pos hfit]
          simp only [Part.indices, hpj]
          exact set_eraseIdx_pair h.partitions i _ hlen
        · have hperm := ilvGo_perm idx1 idx2 cmp
            (idx1.length + idx2.length) 0 0 (by omega) (by omega) (by omega)
          simpa [interleaveArrays, Part.indices] using hperm
      · intro hdisj
        have hnm : ¬(¬(Part.s id1 idx1 cap1 mn1).isUniform ∧
            ¬(Part.s id2 idx2 cap2 mn2).isUniform ∧
            (Part.s id1 idx1 cap1 mn1).length + (Part.s id2 idx2 cap2 mn2).length ≤
              h.partitionLength) := by
          simp only [Part.isUniform, Part.length] at hdisj ⊢
          rcases hdisj with hc | hc | hc
          · simp at hc
          · simp at hc
          · intro hand
            omega
        simp only [Heap.joinPartitionsF, if_pos hguard, htn, h1, h2, if_neg hne,
          if_neg hnm]
  · -- sorted, uniform
    constructor
    · intro hmax
      refine ⟨(unifJoin h.lookups id2 idx2 mn2 idx1).2, ?_, ?_, ?_, ?_⟩
      · simp only [Heap.joinPartitionsF, if_pos hguard, htn, h1, h2, if_pos hmax,
          Part.isUniform, Bool.false_eq_true, if_false, if_true, Part.indices,
          Heap.reindex]
        exact set_eraseIdx_pair' h.partitions i _ hlen
      · rfl
      · simp only [unifJoin, Part.indices]
        exact List.perm_append_comm
      · simp [unifJoin, Part.isUniform, Part.id]
    · intro hne
      constructor
      · rintro ⟨-, hcontra, -⟩
        simp [Part.isUniform] at hcontra
      · intro hdisj
        have hnm : ¬(¬(Part.s id1 idx1 cap1 mn1).isUniform ∧
            ¬(Part.u id2 idx2 mn2).isUniform ∧
            (Part.s id1 idx1 cap1 mn1).length + (Part.u id2 idx2 mn2).length ≤
              h.partitionLength) := by
          rintro ⟨-, hcontra, -⟩
          simp [Part.isUniform] at hcontra
        simp only [Heap.joinPartitionsF, if_pos hguard, htn, h1, h2, if_neg hne,
          if_neg hnm]
  · -- uniform, sorted
    constructor
    · intro hmax
      refine ⟨(unifJoin h.lookups id1 idx1 mn1 idx2).2, ?_, ?_, ?_, ?_⟩
      · simp only [Heap.joinPartitionsF, if_pos hguard, htn, h1, h2, if_pos hmax,
          Part.isUniform, if_true, Part.indices, Heap.reindex]
        exact set_eraseIdx_pair h.partitions i _ hlen
      · rfl
      · simp [unifJoin, Part.indices]
      · simp [unifJoin, Part.isUniform, Part.id]
    · intro hne
      constructor
      · rintro ⟨hcontra, -, -⟩
        simp [Part.isUniform] at hcontra
      · intro hdisj
        have hnm : ¬(¬(Part.u id1 idx1 mn1).isUniform ∧
            ¬(Part.s id2 idx2 cap2 mn2).isUniform ∧
            (Part.u id1 idx1 mn1).length + (Part.s id2 idx2 cap2 mn2).length ≤
              h.partitionLength) := by
          rintro ⟨hcontra, -, -⟩
          simp [Part.isUniform] at hcontra
        simp only [Heap.joinPartitionsF, if_pos hguard, htn, h1, h2, if_neg hne,
          if_neg hnm]
  · -- uniform, uniform
    constructor
    · intro hmax
      refine ⟨(unifJoin h.lookups id1 idx1 mn1 idx2).2, ?_, ?_, ?_, ?_⟩
      · simp only [Heap.joinPartitionsF, if_pos hguard, htn, h1, h2, if_pos hmax,
          Part.isUniform, if_true, Part.indices, Heap.reindex]
        exact set_eraseIdx_pair h.partitions i _ hlen
      · rfl
      · simp [unifJoin, Part.indices]
      · simp [unifJoin, Part.isUniform, Part.id]
    · intro hne
      constructor
      · rintro ⟨hcontra, -, -⟩
        simp [Part.isUniform] at hcontra
      · intro hdisj
        have hnm : ¬(¬(Part.u id1 idx1 mn1).isUniform ∧
            ¬(Part.u id2 idx2 mn2).isUniform ∧
            (Part.u id1 idx1 mn1).length + (Part.u id2 idx2 mn2).length ≤
              h.partitionLength) := by
          rintro ⟨hcontra, -, -⟩
          simp [Part.isUniform] at hcontra
        simp only [Heap.joinPartitionsF, if_pos hguard, htn, h1, h2, if_neg hne,
          if_neg hnm]


/-- Witness for `joinPartitions_characterization` on the two-segment heap
`joinWitnessHeap` (uniform id 0 and sorted id 1, all at score 5): the pair
spans the single score 5, so the uniform lower segment absorbs the sorted
one. -/
theorem joinPartitions_characterization_witness :
    ∃ q, (joinWitnessHeap.joinPartitionsF ((0 : Nat) : Int)).partitions =
        joinWitnessHeap.partitions.take 0 ++ q :: joinWitnessHeap.partitions.drop 2 ∧
      q.isUniform = true ∧
      q.indices.Perm ((Part.u 0 [0, 1, -1] 5).indices ++ (Part.s 1 [3, 4] 32 5).indices) ∧
      q.id = (if (Part.u 0 [0, 1, -1] 5).isUniform then (Part.u 0 [0, 1, -1] 5).id
              else if (Part.s 1 [3, 4] 32 5).isUniform then (Part.s 1 [3, 4] 32 5).id
              else joinWitnessHeap.nextId) :=
  (joinPartitions_characterization joinWitnessHeap 0 (Part.u 0 [0, 1, -1] 5)
    (Part.s 1 [3, 4] 32 5) (by decide) (by decide)).1 (by decide)

/-! Frame lemmas for the side table: each setter touches one field only, and
out-of-range or negative writes are no-ops. -/

lemma scoreOf_setParId (L : Lookups) (i v x : Int) :
    ((L.setParId i v).scoreOf x) = L.scoreOf x := by
  unfold Lookups.setParId Lookups.scoreOf
  split <;> rfl

lemma scoreOf_setSlot (L : Lookups) (i v x : Int) :
    ((L.setSlot i v).scoreOf x) = L.scoreOf x := by
  unfold Lookups.setSlot Lookups.scoreOf
  split <;> rfl

lemma parIdOf_setScore (L : Lookups) (i v x : Int) :
    ((L.setScore i v).parIdOf x) = L.parIdOf x := by
  unfold Lookups.setScore Lookups.parIdOf
  split <;> rfl

lemma parIdOf_setSlot (L : Lookups) (i v x : Int) :
    ((L.setSlot i v).parIdOf x) = L.parIdOf x := by
  unfold Lookups.setSlot Lookups.parIdOf
  split <;> rfl

lemma slotOf_setScore (L : Lookups) (i v x : Int) :
    ((L.setScore i v).slotOf x) = L.slotOf x := by
  unfold Lookups.setScore Lookups.slotOf
  split <;> rfl

lemma slotOf_setParId (L : Lookups) (i v x : Int) :
    ((L.setParId i v).slotOf x) = L.slotOf x := by
  unfold Lookups.setParId Lookups.slotOf
  split <;> rfl

lemma scoreOf_setScore_same (L : Lookups) (i v : Int) (h0 : 0 ≤ i)
    (hlt : i.toNat < L.score.length) : ((L.setScore i v).scoreOf i) = v := by
  unfold Lookups.setScore Lookups.scoreOf
  rw [if_pos h0]
  have hl : i.toNat < (L.score.set i.toNat v).length := by simpa using hlt
  simp [List.getD, List.getElem?_eq_getElem hl, List.getElem_set_self]

lemma scoreOf_setScore_other (L : Lookups) (i v x : Int) (hne : x.toNat ≠ i.toNat) :
    ((L.setScore i v).scoreOf x) = L.scoreOf x := by
  unfold Lookups.setScore Lookups.scoreOf
  split
  · simp [List.getD, List.getElem?_set_ne (by omega : i.toNat ≠ x.toNat)]
  · rfl

lemma parIdOf_setParId_same (L : Lookups) (i v : Int) (h0 : 0 ≤ i)
    (hlt : i.toNat < L.parId.length) : ((L.setParId i v).parIdOf i) = v := by
  unfold Lookups.setParId Lookups.parIdOf
  rw [if_pos h0]
  have hl : i.toNat < (L.parId.set i.toNat v).length := by simpa using hlt
  simp [List.getD, List.getElem?_eq_getElem hl, List.getElem_set_self]

lemma parIdOf_setParId_other (L : Lookups) (i v x : Int) (hne : x.toNat ≠ i.toNat) :
    ((L.setParId i v).parIdOf x) = L.parIdOf x := by
  unfold Lookups.setParId Lookups.parIdOf
  split
  · simp [List.getD, List.getElem?_set_ne (by omega : i.toNat ≠ x.toNat)]
  · rfl

lemma slotOf_setSlot_same (L : Lookups) (i v : Int) (h0 : 0 ≤ i)
    (hlt : i.toNat < L.slot.length) : ((L.setSlot i v).slotOf i) = v := by
  unfold Lookups.setSlot Lookups.slotOf
  rw [if_pos h0]
  have hl : i.toNat < (L.slot.set i.toNat v).length := by simpa using hlt
  simp [List.getD, List.getElem?_eq_getElem hl, List.getElem_set_self]

lemma slotOf_setSlot_other (L : Lookups) (i v x : Int) (hne : x.toNat ≠ i.toNat) :
    ((L.setSlot i v).slotOf x) = L.slotOf x := by
  unfold Lookups.setSlot Lookups.slotOf
  split
  · simp [List.getD, List.getElem?_set_ne (by omega : i.toNat ≠ x.toNat)]
  · rfl

lemma lookups_lengths_setScore (L : Lookups) (i v : Int) :
    (L.setScore i v).score.length = L.score.length ∧
    (L.setScore i v).parId.length = L.parId.length ∧
    (L.setScore i v).slot.length = L.slot.length := by
  unfold Lookups.setScore
  split <;> simp

lemma lookups_lengths_setParId (L : Lookups) (i v : Int) :
    (L.setParId i v).score.length = L.score.length ∧
    (L.setParId i v).parId.length = L.parId.length ∧
    (L.setParId i v).slot.length = L.slot.length := by
  unfold Lookups.setParId
  split <;> simp

lemma lookups_lengths_setSlot (L : Lookups) (i v : Int) :
    (L.setSlot i v).score.length = L.score.length ∧
    (L.setSlot i v).parId.length = L.parId.length ∧
    (L.setSlot i v).slot.length = L.slot.length := by
  unfold Lookups.setSlot
  split <;> simp

/-! Sign analysis of the `score difference || identifier difference`
comparator and of the strict key order. -/

lemma orInt_neg_iff (a b c d : Int) :
    orInt (a - b) (c - d) < 0 ↔ (a < b ∨ (a = b ∧ c < d)) := by
  unfold orInt
  split <;> omega

lemma orInt_pos_iff (a b c d : Int) :
    0 < orInt (a - b) (c - d) ↔ (b < a ∨ (a = b ∧ d < c)) := by
  unfold orInt
  split <;> omega

lemma orInt_eq_zero_iff (a b c d : Int) :
    orInt (a - b) (c - d) = 0 ↔ (a = b ∧ c = d) := by
  unfold orInt
  split <;> omega

lemma keyLt_trans (L : Lookups) {x y z : Int} (h1 : keyLt L x y) (h2 : keyLt L y z) :
    keyLt L x z := by
  unfold keyLt at *
  rcases h1 with h1 | ⟨h1, h1'⟩ <;> rcases h2 with h2 | ⟨h2, h2'⟩
  · exact Or.inl (lt_trans h1 h2)
  · exact Or.inl (h2 ▸ h1)
  · exact Or.inl (h1 ▸ h2)
  · exact Or.inr ⟨h1.trans h2, lt_trans h1' h2'⟩

lemma keyLt_irrefl (L : Lookups) (x : Int) : ¬ keyLt L x x := by
  unfold keyLt
  omega

lemma keyLt_asymm (L : Lookups) {x y : Int} (h : keyLt L x y) : ¬ keyLt L y x := by
  unfold keyLt at *
  omega

lemma keyLt_trichotomy (L : Lookups) (x y : Int) :
    keyLt L x y ∨ x = y ∨ keyLt L y x := by
  unfold keyLt
  rcases lt_trichotomy (L.scoreOf x) (L.scoreOf y) with h | h | h
  · exact Or.inl (Or.inl h)
  · rcases lt_trichotomy x y with h' | h' | h'
    · exact Or.inl (Or.inr ⟨h, h'⟩)
    · exact Or.inr (Or.inl h')
    · exact Or.inr (Or.inr (Or.inr ⟨h.symm, h'⟩))
  · exact Or.inr (Or.inr (Or.inl h))

/-- A strictly key-sorted list has no duplicate entries. -/
lemma pairwise_keyLt_nodup (L : Lookups) (l : List Int)
    (h : List.Pairwise (keyLt L) l) : l.Nodup := by
  refine h.imp ?_
  intro a b hab
  intro he
  exact keyLt_irrefl L a (he ▸ hab)

/-- The key order only reads scores, so writes to other fields or other
identifiers preserve it. -/
lemma keyLt_congr (L L' : Lookups) (hs : ∀ z : Int, L'.scoreOf z = L.scoreOf z)
    (x y : Int) : keyLt L' x y ↔ keyLt L x y := by
  unfold keyLt
  rw [hs x, hs y]

end ScoreHeapModel
